import Mathlib

/-! Collision-lifecycle bookkeeping of `bullet::PhysicsWorld`.

A shallow embedding of the identifier / registry / collision-pair logic of
`plugin/bullet/src/minko/component/bullet/PhysicsWorld.cpp`.

* Pointers (`ColliderData::Ptr`, `btCollisionObject*`) are natural numbers used
  only for their identity; a nullable pointer is an `Option`.
* The three maps are finite maps seen as functions into `Option`; `insert`
  keeps an existing binding, as `std::map::insert` does.
* `CollisionSet` (`std::set<std::pair<uint, uint>>`) is a strictly increasing
  list for the lexicographic order, so iteration order is the one of the code.
* Signals are modelled by the list of notifications they deliver, in order;
  the handlers connected to them are taken not to call back into the world
  while `notifyCollisions` runs.
* `LinearIdAllocator` is given by its contract: which free identifier
  `allocate` returns is an argument of the call, and `free` of an identifier
  that is not allocated has no defined result.
* `removeChild` is embedded for a non-null argument (the code dereferences it).
* The short lemmas that follow `CollisionSet` are the ones its operations need
  to state that they return a strictly increasing list.
-/

namespace Minko

/-- Address of a `ColliderData` object. -/
abbrev ColliderPtr := Nat

/-- Address of a `btCollisionObject` (the rigid body of a `BulletCollider`). -/
abbrev BodyPtr := Nat

/-- The fields of `ColliderData` read or written by `PhysicsWorld`:
the identifier set by `uid(...)`, the owning node returned by `node()`
(`none` is `nullptr`) and the flag returned by `triggerCollisions()`. -/
structure ColliderData where
  uid : Nat
  node : Option Nat
  triggerCollisions : Bool
deriving DecidableEq, Repr

/-- The exceptions thrown by `addChild`. -/
inductive Error where
  | invalidArgument
  | duplicate
  | exhausted
deriving DecidableEq, Repr

/-! ## Identifier allocator -/

/-- Modelled from the spec: `LinearIdAllocator` (its header is not part of the
sources at hand). The allocator has a fixed `capacity` and a set of identifiers
currently in use. -/
structure LinearIdAllocator where
  capacity : Nat
  used : Nat → Bool

namespace LinearIdAllocator

/-- Modelled from the spec: `LinearIdAllocator::create(capacity)`, with every
identifier available. -/
def create (capacity : Nat) : LinearIdAllocator :=
  { capacity := capacity, used := fun _ => false }

/-- Search of the least identifier not in use among `i, i + 1, ...`, looking at
`fuel` identifiers at most. -/
def firstFreeFrom (used : Nat → Bool) : Nat → Nat → Option Nat
  | 0, _ => none
  | fuel + 1, i => if used i then firstFreeFrom used fuel (i + 1) else some i

/-- The least identifier of `[0, capacity)` that is not in use, if any. -/
def firstFree (a : LinearIdAllocator) : Option Nat :=
  firstFreeFrom a.used a.capacity 0

/-- Modelled from the spec: `allocate()` returns an unused identifier of
`[0, capacity)` and marks it used, and fails when all `capacity` identifiers are
in use. The spec gives no guarantee on which free identifier is returned: the
argument `pick` stands for the allocator's policy, it is returned when it is a
free identifier of the range, and the least free identifier is returned
otherwise. -/
def allocate (a : LinearIdAllocator) (pick : Nat) : Except Error (Nat × LinearIdAllocator) :=
  match a.firstFree with
  | none => .error .exhausted
  | some least =>
    let id := if pick < a.capacity ∧ a.used pick = false then pick else least
    .ok (id, { a with used := fun i => if i = id then true else a.used i })

/-- Modelled from the spec: `free(id)` returns an identifier to the available
pool; the call is undefined (`none`) when `id` is not currently allocated. -/
def free (a : LinearIdAllocator) (id : Nat) : Option LinearIdAllocator :=
  if a.used id = true then
    some { a with used := fun i => if i = id then false else a.used i }
  else
    none

end LinearIdAllocator

/-! ## Collision pairs and the ordered collision set -/

/-- A `std::pair<uint, uint>` of collider identifiers. -/
abbrev Collision := Nat × Nat

/-- The order of `std::pair`: lexicographic. -/
def Collision.lt (p q : Collision) : Prop :=
  p.1 < q.1 ∨ (p.1 = q.1 ∧ p.2 < q.2)

instance Collision.decLt (p q : Collision) : Decidable (Collision.lt p q) :=
  inferInstanceAs (Decidable (p.1 < q.1 ∨ (p.1 = q.1 ∧ p.2 < q.2)))

/-- Insertion into a strictly increasing list, keeping it so; an element that
is already present is not inserted again. -/
def insertSorted (c : Collision) : List Collision → List Collision
  | [] => [c]
  | x :: xs =>
    if Collision.lt c x then c :: x :: xs
    else if c = x then x :: xs
    else x :: insertSorted c xs

/-- The type `CollisionSet` of the code, `std::set<std::pair<uint, uint>>`. -/
structure CollisionSet where
  elems : List Collision
  sorted : elems.Pairwise Collision.lt

theorem Collision.lt_trans {p q r : Collision} (h₁ : Collision.lt p q)
    (h₂ : Collision.lt q r) : Collision.lt p r := by
  unfold Collision.lt at *
  omega

theorem Collision.lt_irrefl (p : Collision) : ¬ Collision.lt p p := by
  unfold Collision.lt
  omega

theorem Collision.lt_of_not_lt_of_ne {p q : Collision} (h₁ : ¬ Collision.lt p q)
    (h₂ : p ≠ q) : Collision.lt q p := by
  unfold Collision.lt at *
  have h₃ : ¬ (p.1 = q.1 ∧ p.2 = q.2) := fun h => h₂ (Prod.ext h.1 h.2)
  omega

theorem mem_insertSorted (c p : Collision) (l : List Collision) :
    p ∈ insertSorted c l ↔ p = c ∨ p ∈ l := by
  induction l with
  | nil => simp [insertSorted]
  | cons x xs ih =>
    unfold insertSorted
    split
    · simp
    · split
      · rename_i h
        subst h
        simp
      · simp only [List.mem_cons, ih]
        tauto

theorem pairwise_insertSorted (c : Collision) (l : List Collision)
    (h : l.Pairwise Collision.lt) : (insertSorted c l).Pairwise Collision.lt := by
  induction l with
  | nil => simp [insertSorted]
  | cons x xs ih =>
    unfold insertSorted
    have hx := List.pairwise_cons.mp h
    split
    · rename_i hlt
      refine List.pairwise_cons.mpr ⟨?_, h⟩
      intro y hy
      rcases List.mem_cons.mp hy with rfl | hy
      · exact hlt
      · exact Collision.lt_trans hlt (hx.1 y hy)
    · split
      · exact h
      · rename_i hnlt hne
        refine List.pairwise_cons.mpr ⟨?_, ih hx.2⟩
        intro y hy
        rcases (mem_insertSorted c y xs).mp hy with rfl | hy
        · exact Collision.lt_of_not_lt_of_ne hnlt hne
        · exact hx.1 y hy

namespace CollisionSet

/-- The empty set. -/
def empty : CollisionSet := ⟨[], List.Pairwise.nil⟩

/-- The method `std::set::insert`. -/
def insert (s : CollisionSet) (c : Collision) : CollisionSet :=
  ⟨insertSorted c s.elems, pairwise_insertSorted c s.elems s.sorted⟩

/-- The test `s.find(c) != s.end()`. -/
def contains (s : CollisionSet) (c : Collision) : Bool :=
  decide (c ∈ s.elems)

/-- The result of `std::set_difference(s, t)` inserted into a fresh set. -/
def diff (s t : CollisionSet) : CollisionSet :=
  ⟨s.elems.filter (fun c => !t.contains c), s.sorted.filter _⟩

/-- The erase loop of `removeChild`: every pair in which `uid` appears, as
first or second component, is erased. -/
def eraseUid (s : CollisionSet) (uid : Nat) : CollisionSet :=
  ⟨s.elems.filter (fun c => !(decide (c.1 = uid) || decide (c.2 = uid))), s.sorted.filter _⟩

end CollisionSet

/-! ## The physics world -/

/-- A `btPersistentManifold`, reduced to `getBody0()` and `getBody1()`. -/
structure Manifold where
  body0 : BodyPtr
  body1 : BodyPtr
deriving DecidableEq, Repr

/-- One execution of a collider's `collisionStarted()` or `collisionEnded()`
signal: `execute(receiver, partner)`. -/
inductive Notification where
  | collisionStarted (receiver partner : ColliderPtr)
  | collisionEnded (receiver partner : ColliderPtr)
deriving DecidableEq, Repr

/-- The constant `_MAX_BODIES`. -/
def MAX_BODIES : Nat := 2048

/-- The state of a `bullet::PhysicsWorld` together with the collider records
it points to. `records` is the heap of `ColliderData` objects, `dynamicsBodies`
the bodies held by `_bulletDynamicsWorld`, and the two slot fields are the key
sets of `_colliderGroupChangedSlot` and `_colliderMaskChangedSlot`. -/
structure PhysicsWorld where
  records : ColliderPtr → ColliderData
  uidAllocator : LinearIdAllocator
  colliderMap : ColliderPtr → Option BodyPtr
  colliderReverseMap : BodyPtr → Option ColliderPtr
  uidToCollider : Nat → Option ColliderPtr
  collisions : CollisionSet
  colliderGroupChangedSlot : ColliderPtr → Bool
  colliderMaskChangedSlot : ColliderPtr → Bool
  dynamicsBodies : List BodyPtr

/-- The method `std::map::insert`: the binding is added only when the key has
none yet. -/
def mapInsert {β : Type} (m : Nat → Option β) (k : Nat) (v : β) : Nat → Option β :=
  fun x => if x = k then (match m k with | some old => some old | none => some v) else m x

/-- The method `std::map::erase`. -/
def mapErase {β : Type} (m : Nat → Option β) (k : Nat) : Nat → Option β :=
  fun x => if x = k then none else m x

namespace PhysicsWorld

/-- The constructor: empty maps, an empty collision set and an allocator of
`_MAX_BODIES` identifiers, over a given heap of collider records. -/
def create (records : ColliderPtr → ColliderData) : PhysicsWorld :=
  { records := records
    uidAllocator := LinearIdAllocator.create MAX_BODIES
    colliderMap := fun _ => none
    colliderReverseMap := fun _ => none
    uidToCollider := fun _ => none
    collisions := CollisionSet.empty
    colliderGroupChangedSlot := fun _ => false
    colliderMaskChangedSlot := fun _ => false
    dynamicsBodies := [] }

/-- The method `hasCollider`. -/
def hasCollider (w : PhysicsWorld) (data : ColliderPtr) : Bool :=
  (w.colliderMap data).isSome

/-- The method `targetRemovedHandler`: the three maps are cleared; the
allocator, the tracked collisions and the signal slots of the colliders are
left as they are. -/
def targetRemovedHandler (w : PhysicsWorld) : PhysicsWorld :=
  { w with
    colliderMap := fun _ => none
    colliderReverseMap := fun _ => none
    uidToCollider := fun _ => none }

/-- The method `addChild`. `data` is the argument (`none` is `nullptr`),
`body` is the address of the rigid body made by `BulletCollider::create(data)`
and `pick` is the policy of the allocator for this call. -/
def addChild (w : PhysicsWorld) (data : Option ColliderPtr) (body : BodyPtr) (pick : Nat) :
    Except Error PhysicsWorld :=
  match data with
  | none => .error .invalidArgument
  | some d =>
    if (w.records d).node = none then .error .invalidArgument
    else if w.hasCollider d then .error .duplicate
    else
      match w.uidAllocator.allocate pick with
      | .error e => .error e
      | .ok (id, alloc) =>
        .ok { w with
          uidAllocator := alloc
          records := fun p => if p = d then { w.records d with uid := id } else w.records p
          uidToCollider := mapInsert w.uidToCollider id d
          colliderMap := mapInsert w.colliderMap d body
          colliderReverseMap := mapInsert w.colliderReverseMap body d
          colliderGroupChangedSlot := fun p => if p = d then true else w.colliderGroupChangedSlot p
          colliderMaskChangedSlot := fun p => if p = d then true else w.colliderMaskChangedSlot p
          dynamicsBodies := w.dynamicsBodies ++ [body] }

/-- First block of `removeChild`: the two signal slots of `data` are erased. -/
def removeSlots (w : PhysicsWorld) (data : ColliderPtr) : PhysicsWorld :=
  { w with
    colliderGroupChangedSlot := fun p => if p = data then false else w.colliderGroupChangedSlot p
    colliderMaskChangedSlot := fun p => if p = data then false else w.colliderMaskChangedSlot p }

/-- Second block of `removeChild`: when `data` is a key of `_colliderMap`, its
body is erased from the reverse map and from the dynamics world, and `data` is
erased from `_colliderMap`. -/
def removeBody (w : PhysicsWorld) (data : ColliderPtr) : PhysicsWorld :=
  match w.colliderMap data with
  | none => w
  | some bulletObject =>
    { w with
      colliderReverseMap := mapErase w.colliderReverseMap bulletObject
      dynamicsBodies := w.dynamicsBodies.erase bulletObject
      colliderMap := mapErase w.colliderMap data }

/-- Third block of `removeChild`: when `data->uid()` is a key of
`_uidToCollider`, the identifier is freed and the key erased. The result is
`none` when the call of `free` is undefined. -/
def removeUid (w : PhysicsWorld) (data : ColliderPtr) : Option PhysicsWorld :=
  match w.uidToCollider (w.records data).uid with
  | none => some w
  | some _ =>
    match w.uidAllocator.free (w.records data).uid with
    | none => none
    | some alloc =>
      some { w with
        uidAllocator := alloc
        uidToCollider := mapErase w.uidToCollider (w.records data).uid }

/-- The method `removeChild`, for a non-null `data`: the three blocks above,
then the loop that erases every tracked pair in which `data->uid()` appears. -/
def removeChild (w : PhysicsWorld) (data : ColliderPtr) : Option PhysicsWorld :=
  match removeUid (removeBody (removeSlots w data) data) data with
  | none => none
  | some w₁ => some { w₁ with collisions := w₁.collisions.eraseUid (w₁.records data).uid }

/-- The pair built from two identifiers in `notifyCollisions`, swapped when
the first is greater than the second. -/
def canonical (u0 u1 : Nat) : Collision :=
  if u0 > u1 then (u1, u0) else (u0, u1)

/-- The lookup `_colliderReverseMap.find(...)` on both bodies of a manifold;
`none` when the loop takes its `continue`. -/
def resolveManifold (w : PhysicsWorld) (m : Manifold) : Option (ColliderPtr × ColliderPtr) :=
  match w.colliderReverseMap m.body0, w.colliderReverseMap m.body1 with
  | some d0, some d1 => some (d0, d1)
  | _, _ => none

/-- The notifications of one manifold whose bodies resolve to `d0` and `d1`. -/
def startedNotifications (w : PhysicsWorld) (d0 d1 : ColliderPtr) : List Notification :=
  if w.collisions.contains (canonical (w.records d0).uid (w.records d1).uid) then []
  else
    (if (w.records d0).triggerCollisions then [Notification.collisionStarted d0 d1] else []) ++
    (if (w.records d1).triggerCollisions then [Notification.collisionStarted d1 d0] else [])

/-- One iteration of the first loop of `notifyCollisions`, on the pair made of
`currentCollisions` and of the notifications delivered so far. -/
def manifoldStep (w : PhysicsWorld) (acc : CollisionSet × List Notification) (m : Manifold) :
    CollisionSet × List Notification :=
  match w.resolveManifold m with
  | none => acc
  | some (d0, d1) =>
    (acc.1.insert (canonical (w.records d0).uid (w.records d1).uid),
     acc.2 ++ w.startedNotifications d0 d1)

/-- One iteration of the second loop of `notifyCollisions`, for a lost pair. -/
def lostNotifications (w : PhysicsWorld) (collision : Collision) : List Notification :=
  match w.uidToCollider collision.1, w.uidToCollider collision.2 with
  | some d0, some d1 => [Notification.collisionEnded d0 d1, Notification.collisionEnded d1 d0]
  | _, _ => []

/-- The method `notifyCollisions`, for the manifolds of the dispatcher: the
new state and the notifications delivered, in order. -/
def notifyCollisions (w : PhysicsWorld) (manifolds : List Manifold) :
    PhysicsWorld × List Notification :=
  let r := manifolds.foldl w.manifoldStep (CollisionSet.empty, [])
  let lostCollisions := w.collisions.diff r.1
  ({ w with collisions := r.1 }, r.2 ++ lostCollisions.elems.flatMap w.lostNotifications)

/-- The notifications delivered by the first loop of `notifyCollisions` for
one manifold. -/
def manifoldNotifications (w : PhysicsWorld) (m : Manifold) : List Notification :=
  match w.resolveManifold m with
  | none => []
  | some (d0, d1) => w.startedNotifications d0 d1

/-- The pair inserted into `currentCollisions` for one manifold, if any. -/
def manifoldCollision (w : PhysicsWorld) (m : Manifold) : Option Collision :=
  match w.resolveManifold m with
  | none => none
  | some (d0, d1) => some (canonical (w.records d0).uid (w.records d1).uid)

end PhysicsWorld

/-- The manifold with `getBody0()` and `getBody1()` exchanged. -/
def Manifold.swap (m : Manifold) : Manifold :=
  { body0 := m.body1, body1 := m.body0 }

/-- The manifold list in which the bodies of the manifolds selected by
`flips` (by position) are exchanged. -/
def swapSome : List Manifold → List Bool → List Manifold
  | [], _ => []
  | m :: ms, [] => m :: ms
  | m :: ms, f :: fs => (if f then m.swap else m) :: swapSome ms fs

/-! ## Sequences of calls -/

/-- A call made on the world by its environment. -/
inductive Op where
  | addChild (data : Option ColliderPtr) (body : BodyPtr) (pick : Nat)
  | removeChild (data : ColliderPtr)
  | notifyCollisions (manifolds : List Manifold)
  | targetRemovedHandler

/-- One call: the new state and the notifications delivered, or `none` when
the call is undefined. A call of `addChild` that throws leaves the state as it
was (the exception is thrown before any change). -/
def step (w : PhysicsWorld) : Op → Option (PhysicsWorld × List Notification)
  | .addChild data body pick =>
    match w.addChild data body pick with
    | .ok w₁ => some (w₁, [])
    | .error _ => some (w, [])
  | .removeChild data =>
    match w.removeChild data with
    | some w₁ => some (w₁, [])
    | none => none
  | .notifyCollisions manifolds => some (w.notifyCollisions manifolds)
  | .targetRemovedHandler => some (w.targetRemovedHandler, [])

/-- A sequence of calls, with all notifications delivered along the way. -/
def run (w : PhysicsWorld) : List Op → Option (PhysicsWorld × List Notification)
  | [] => some (w, [])
  | op :: ops =>
    match step w op with
    | none => none
    | some (w₁, ns₁) =>
      match run w₁ ops with
      | none => none
      | some (w₂, ns₂) => some (w₂, ns₁ ++ ns₂)

/-- The bodies handed to the calls of `addChild` in a sequence. -/
def createdBodies : List Op → List BodyPtr
  | [] => []
  | .addChild _ body _ :: ops => body :: createdBodies ops
  | _ :: ops => createdBodies ops

/-- A sequence of calls of `addChild` on non-null records, each given with the
body created for it and the policy of the allocator; the result is that of the
first call that throws, if any, and the final state otherwise. -/
def addChildren (w : PhysicsWorld) :
    List (ColliderPtr × BodyPtr × Nat) → Except Error PhysicsWorld
  | [] => .ok w
  | (d, body, pick) :: calls =>
    match w.addChild (some d) body pick with
    | .ok w₁ => addChildren w₁ calls
    | .error e => .error e

/-- The number of identifiers of `[0, capacity)` in use. -/
def LinearIdAllocator.usedCount (a : LinearIdAllocator) : Nat :=
  ((Finset.range a.capacity).filter (fun i => a.used i = true)).card

/-! ## Invariants of the registry -/

/-- The identifier map is keyed by the identifier of each record it holds,
holds registered records only, and its keys are allocated; the tracked pairs
have their smaller identifier first; every record of the reverse map is
registered with the body it is found under. -/
structure UidInv (w : PhysicsWorld) : Prop where
  reverse_registered : ∀ b r, w.colliderReverseMap b = some r → w.colliderMap r = some b
  uid_key : ∀ u d, w.uidToCollider u = some d → (w.records d).uid = u
  uid_registered : ∀ u d, w.uidToCollider u = some d → w.colliderMap d ≠ none
  uid_used : ∀ u d, w.uidToCollider u = some d → w.uidAllocator.used u = true
  canonical_pairs : ∀ p ∈ w.collisions.elems, p.1 ≤ p.2

/-- The forward and reverse maps are inverse of each other. -/
def RegistryConsistent (w : PhysicsWorld) : Prop :=
  ∀ r b, w.colliderMap r = some b ↔ w.colliderReverseMap b = some r

/-- The record `d` is the receiver or the partner of the notification. -/
def Notification.mentions (n : Notification) (d : ColliderPtr) : Prop :=
  match n with
  | .collisionStarted receiver partner => receiver = d ∨ partner = d
  | .collisionEnded receiver partner => receiver = d ∨ partner = d

/-- The record `d` is a value neither of the reverse map nor of the identifier
map: no lookup of `notifyCollisions` can return it. -/
def Unreferenced (w : PhysicsWorld) (d : ColliderPtr) : Prop :=
  (∀ b, w.colliderReverseMap b ≠ some d) ∧ (∀ u, w.uidToCollider u ≠ some d)

/-! ## Concrete worlds -/

/-- A heap of collider records that all have a node and the identifier `0` of a
record never registered; only the record `10` triggers collisions. -/
def exampleRecords : ColliderPtr → ColliderData :=
  fun p => { uid := 0, node := some 1, triggerCollisions := decide (p = 10) }

/-- The state after registering the records `10`, `11` and `12` (bodies `100`,
`101`, `102`, identifiers `0`, `1`, `2`) and one frame in which the three
bodies touch each other. -/
def exampleWorld : PhysicsWorld :=
  match run (PhysicsWorld.create exampleRecords)
      [.addChild (some 10) 100 0, .addChild (some 11) 101 1, .addChild (some 12) 102 2,
       .notifyCollisions [⟨100, 101⟩, ⟨101, 102⟩, ⟨102, 100⟩]] with
  | some (w, _) => w
  | none => PhysicsWorld.create exampleRecords

/-- The state `exampleWorld` after the owners of the records have reset their
node: the three records are still registered and `node()` is `nullptr`. -/
def nodeLostWorld : PhysicsWorld :=
  { exampleWorld with records := fun p => { exampleWorld.records p with node := none } }

/-! ## Facts on the collision set -/

instance Collision.lt_antisymm : IsAntisymm Collision Collision.lt :=
  ⟨fun a _ h₁ h₂ => absurd (Collision.lt_trans h₁ h₂) (Collision.lt_irrefl a)⟩

theorem CollisionSet.nodup (s : CollisionSet) : s.elems.Nodup := by
  unfold List.Nodup
  refine s.sorted.imp ?_
  intro a b h hab
  subst hab
  exact Collision.lt_irrefl a h

theorem CollisionSet.ext_elems {s t : CollisionSet} (h : s.elems = t.elems) : s = t := by
  cases s
  cases t
  simp only at h
  subst h
  rfl

/-- Two collision sets with the same members are equal. -/
theorem CollisionSet.ext_mem {s t : CollisionSet}
    (h : ∀ p, p ∈ s.elems ↔ p ∈ t.elems) : s = t := by
  apply CollisionSet.ext_elems
  have hperm : s.elems.Perm t.elems := (List.perm_ext_iff_of_nodup s.nodup t.nodup).mpr h
  exact List.eq_of_perm_of_sorted hperm s.sorted t.sorted

theorem CollisionSet.mem_insert (s : CollisionSet) (c p : Collision) :
    p ∈ (s.insert c).elems ↔ p = c ∨ p ∈ s.elems :=
  mem_insertSorted c p s.elems

theorem CollisionSet.contains_iff (s : CollisionSet) (c : Collision) :
    s.contains c = true ↔ c ∈ s.elems := by
  simp [CollisionSet.contains]

theorem CollisionSet.mem_diff (s t : CollisionSet) (p : Collision) :
    p ∈ (s.diff t).elems ↔ p ∈ s.elems ∧ p ∉ t.elems := by
  simp [CollisionSet.diff, CollisionSet.contains]

theorem CollisionSet.mem_eraseUid (s : CollisionSet) (uid : Nat) (p : Collision) :
    p ∈ (s.eraseUid uid).elems ↔ p ∈ s.elems ∧ p.1 ≠ uid ∧ p.2 ≠ uid := by
  simp [CollisionSet.eraseUid]

theorem CollisionSet.diff_self (s : CollisionSet) : (s.diff s).elems = [] := by
  simp [CollisionSet.diff, CollisionSet.contains]

/-! ## Facts on `notifyCollisions` -/

namespace PhysicsWorld

theorem canonical_comm (u0 u1 : Nat) : canonical u0 u1 = canonical u1 u0 := by
  unfold canonical
  split <;> split <;> simp <;> omega

theorem canonical_eq_min_max (u0 u1 : Nat) : canonical u0 u1 = (min u0 u1, max u0 u1) := by
  unfold canonical
  split
  · rw [min_eq_right (by omega), max_eq_left (by omega)]
  · rw [min_eq_left (by omega), max_eq_right (by omega)]

theorem canonical_le (u0 u1 : Nat) : (canonical u0 u1).1 ≤ (canonical u0 u1).2 := by
  unfold canonical
  split <;> simp <;> omega

theorem foldl_manifoldStep_snd (w : PhysicsWorld) (ms : List Manifold)
    (acc : CollisionSet × List Notification) :
    (ms.foldl w.manifoldStep acc).2 = acc.2 ++ ms.flatMap w.manifoldNotifications := by
  induction ms generalizing acc with
  | nil => simp
  | cons m ms ih =>
    rw [List.foldl_cons, ih, List.flatMap_cons]
    unfold manifoldStep manifoldNotifications
    cases w.resolveManifold m with
    | none => simp
    | some d => simp

theorem foldl_manifoldStep_mem (w : PhysicsWorld) (ms : List Manifold)
    (acc : CollisionSet × List Notification) (p : Collision) :
    p ∈ (ms.foldl w.manifoldStep acc).1.elems ↔
      p ∈ acc.1.elems ∨ ∃ m ∈ ms, w.manifoldCollision m = some p := by
  induction ms generalizing acc with
  | nil => simp
  | cons m ms ih =>
    rw [List.foldl_cons, ih]
    unfold manifoldStep manifoldCollision
    cases hres : w.resolveManifold m with
    | none => simp [hres]
    | some d =>
      simp only [CollisionSet.mem_insert, List.mem_cons, exists_eq_or_imp, hres,
        Option.some.injEq]
      constructor
      · rintro ((h | h) | h)
        · exact Or.inr (Or.inl h.symm)
        · exact Or.inl h
        · exact Or.inr (Or.inr h)
      · rintro (h | h | h)
        · exact Or.inl (Or.inr h)
        · exact Or.inl (Or.inl h.symm)
        · exact Or.inr h

/-- The tracked set after `notifyCollisions`: the pairs of the manifolds. -/
theorem mem_notifyCollisions_collisions (w : PhysicsWorld) (ms : List Manifold)
    (p : Collision) :
    p ∈ (w.notifyCollisions ms).1.collisions.elems ↔
      ∃ m ∈ ms, w.manifoldCollision m = some p := by
  unfold notifyCollisions
  simp only [foldl_manifoldStep_mem]
  simp [CollisionSet.empty]

/-- The notifications of `notifyCollisions`: those of the manifolds, then
those of the lost pairs. -/
theorem notifyCollisions_snd (w : PhysicsWorld) (ms : List Manifold) :
    (w.notifyCollisions ms).2 =
      ms.flatMap w.manifoldNotifications ++
        (w.collisions.diff (w.notifyCollisions ms).1.collisions).elems.flatMap
          w.lostNotifications := by
  unfold notifyCollisions
  simp only [foldl_manifoldStep_snd]
  simp

theorem mem_startedNotifications (w : PhysicsWorld) (d0 d1 : ColliderPtr) (n : Notification) :
    n ∈ w.startedNotifications d0 d1 ↔
      canonical (w.records d0).uid (w.records d1).uid ∉ w.collisions.elems ∧
        (((w.records d0).triggerCollisions = true ∧ n = .collisionStarted d0 d1) ∨
          ((w.records d1).triggerCollisions = true ∧ n = .collisionStarted d1 d0)) := by
  unfold startedNotifications
  by_cases hc : w.collisions.contains (canonical (w.records d0).uid (w.records d1).uid) = true
  · have hm := (CollisionSet.contains_iff _ _).mp hc
    simp [hc, hm]
  · have hm : canonical (w.records d0).uid (w.records d1).uid ∉ w.collisions.elems :=
      fun h => hc ((CollisionSet.contains_iff _ _).mpr h)
    simp only [hc, hm, not_false_eq_true, true_and, List.mem_append, if_false, Bool.false_eq_true]
    by_cases h0 : (w.records d0).triggerCollisions = true <;>
      by_cases h1 : (w.records d1).triggerCollisions = true <;> simp [h0, h1]

theorem mem_manifoldNotifications (w : PhysicsWorld) (m : Manifold) (n : Notification) :
    n ∈ w.manifoldNotifications m ↔
      ∃ d0 d1, w.colliderReverseMap m.body0 = some d0 ∧ w.colliderReverseMap m.body1 = some d1 ∧
        n ∈ w.startedNotifications d0 d1 := by
  unfold manifoldNotifications resolveManifold
  cases h0 : w.colliderReverseMap m.body0 with
  | none => simp
  | some d0 =>
    cases h1 : w.colliderReverseMap m.body1 with
    | none => simp
    | some d1 => simp

theorem manifoldCollision_eq_some (w : PhysicsWorld) (m : Manifold) (p : Collision) :
    w.manifoldCollision m = some p ↔
      ∃ d0 d1, w.colliderReverseMap m.body0 = some d0 ∧ w.colliderReverseMap m.body1 = some d1 ∧
        p = canonical (w.records d0).uid (w.records d1).uid := by
  unfold manifoldCollision resolveManifold
  cases h0 : w.colliderReverseMap m.body0 with
  | none => simp
  | some d0 =>
    cases h1 : w.colliderReverseMap m.body1 with
    | none => simp
    | some d1 =>
      simp only [Option.some.injEq, exists_and_left, exists_eq_left']
      exact eq_comm

theorem mem_lostNotifications (w : PhysicsWorld) (c : Collision) (n : Notification) :
    n ∈ w.lostNotifications c ↔
      ∃ d0 d1, w.uidToCollider c.1 = some d0 ∧ w.uidToCollider c.2 = some d1 ∧
        (n = .collisionEnded d0 d1 ∨ n = .collisionEnded d1 d0) := by
  unfold lostNotifications
  cases h0 : w.uidToCollider c.1 with
  | none => simp
  | some d0 =>
    cases h1 : w.uidToCollider c.2 with
    | none => simp
    | some d1 => simp

/-- The `collisionStarted` notifications of one call of `notifyCollisions`. -/
theorem collisionStarted_mem_notifyCollisions (w : PhysicsWorld) (ms : List Manifold)
    (x y : ColliderPtr) :
    Notification.collisionStarted x y ∈ (w.notifyCollisions ms).2 ↔
      (∃ m ∈ ms, (w.colliderReverseMap m.body0 = some x ∧ w.colliderReverseMap m.body1 = some y) ∨
          (w.colliderReverseMap m.body0 = some y ∧ w.colliderReverseMap m.body1 = some x)) ∧
        canonical (w.records x).uid (w.records y).uid ∉ w.collisions.elems ∧
        (w.records x).triggerCollisions = true := by
  rw [notifyCollisions_snd, List.mem_append]
  simp only [List.mem_flatMap, mem_manifoldNotifications, mem_startedNotifications,
    mem_lostNotifications]
  constructor
  · rintro (⟨m, hm, d0, d1, h0, h1, hc, (⟨ht, he⟩ | ⟨ht, he⟩)⟩ | ⟨c, _, d0, d1, _, _, (he | he)⟩)
    · cases he
      exact ⟨⟨m, hm, Or.inl ⟨h0, h1⟩⟩, hc, ht⟩
    · cases he
      rw [canonical_comm] at hc
      exact ⟨⟨m, hm, Or.inr ⟨h0, h1⟩⟩, hc, ht⟩
    · cases he
    · cases he
  · rintro ⟨⟨m, hm, (⟨h0, h1⟩ | ⟨h0, h1⟩)⟩, hc, ht⟩
    · exact Or.inl ⟨m, hm, x, y, h0, h1, hc, Or.inl ⟨ht, rfl⟩⟩
    · rw [canonical_comm] at hc
      exact Or.inl ⟨m, hm, y, x, h0, h1, hc, Or.inr ⟨ht, rfl⟩⟩

/-- The `collisionEnded` notifications of one call of `notifyCollisions`. -/
theorem collisionEnded_mem_notifyCollisions (w : PhysicsWorld) (ms : List Manifold)
    (x y : ColliderPtr) :
    Notification.collisionEnded x y ∈ (w.notifyCollisions ms).2 ↔
      ∃ c, c ∈ w.collisions.elems ∧ c ∉ (w.notifyCollisions ms).1.collisions.elems ∧
        ((w.uidToCollider c.1 = some x ∧ w.uidToCollider c.2 = some y) ∨
          (w.uidToCollider c.1 = some y ∧ w.uidToCollider c.2 = some x)) := by
  rw [notifyCollisions_snd, List.mem_append]
  simp only [List.mem_flatMap, mem_manifoldNotifications, mem_startedNotifications,
    mem_lostNotifications, CollisionSet.mem_diff]
  constructor
  · rintro (⟨m, _, d0, d1, _, _, _, (⟨_, he⟩ | ⟨_, he⟩)⟩ | ⟨c, ⟨hc, hn⟩, d0, d1, h0, h1, (he | he)⟩)
    · cases he
    · cases he
    · cases he
      exact ⟨c, hc, hn, Or.inl ⟨h0, h1⟩⟩
    · cases he
      exact ⟨c, hc, hn, Or.inr ⟨h0, h1⟩⟩
  · rintro ⟨c, hc, hn, (⟨h0, h1⟩ | ⟨h0, h1⟩)⟩
    · exact Or.inr ⟨c, ⟨hc, hn⟩, x, y, h0, h1, Or.inl rfl⟩
    · exact Or.inr ⟨c, ⟨hc, hn⟩, y, x, h0, h1, Or.inr rfl⟩

theorem manifoldCollision_swap (w : PhysicsWorld) (m : Manifold) :
    w.manifoldCollision m.swap = w.manifoldCollision m := by
  unfold manifoldCollision resolveManifold Manifold.swap
  cases h0 : w.colliderReverseMap m.body0 with
  | none => cases h1 : w.colliderReverseMap m.body1 <;> simp
  | some d0 =>
    cases h1 : w.colliderReverseMap m.body1 with
    | none => simp
    | some d1 => simp [canonical_comm]

theorem mem_manifoldNotifications_swap (w : PhysicsWorld) (m : Manifold) (n : Notification) :
    n ∈ w.manifoldNotifications m.swap ↔ n ∈ w.manifoldNotifications m := by
  simp only [mem_manifoldNotifications, mem_startedNotifications, Manifold.swap]
  constructor
  · rintro ⟨d0, d1, h0, h1, hc, h⟩
    rw [canonical_comm] at hc
    exact ⟨d1, d0, h1, h0, hc, h.symm⟩
  · rintro ⟨d0, d1, h0, h1, hc, h⟩
    rw [canonical_comm] at hc
    exact ⟨d1, d0, h1, h0, hc, h.symm⟩

theorem exists_mem_swapSome (P : Manifold → Prop) (hP : ∀ m, P m.swap ↔ P m)
    (ms : List Manifold) (flips : List Bool) :
    (∃ m ∈ swapSome ms flips, P m) ↔ ∃ m ∈ ms, P m := by
  induction ms generalizing flips with
  | nil => simp [swapSome]
  | cons m ms ih =>
    cases flips with
    | nil => simp [swapSome]
    | cons f fs =>
      simp only [swapSome, List.mem_cons, exists_eq_or_imp, ih]
      cases f <;> simp [hP]

/-- After `notifyCollisions` no manifold of the same list starts a collision. -/
theorem manifoldNotifications_after_notify (w : PhysicsWorld) (ms : List Manifold)
    (m : Manifold) (hm : m ∈ ms) :
    (w.notifyCollisions ms).1.manifoldNotifications m = [] := by
  apply List.eq_nil_iff_forall_not_mem.mpr
  intro n hn
  rw [mem_manifoldNotifications] at hn
  obtain ⟨d0, d1, h0, h1, hs⟩ := hn
  rw [mem_startedNotifications] at hs
  apply hs.1
  rw [mem_notifyCollisions_collisions]
  exact ⟨m, hm, (manifoldCollision_eq_some w m _).mpr ⟨d0, d1, h0, h1, rfl⟩⟩

end PhysicsWorld

/-! ## Facts on the allocator, `addChild` and `removeChild` -/

theorem LinearIdAllocator.firstFreeFrom_some (used : Nat → Bool) (fuel i k : Nat)
    (h : LinearIdAllocator.firstFreeFrom used fuel i = some k) :
    used k = false ∧ i ≤ k ∧ k < i + fuel := by
  induction fuel generalizing i with
  | zero => simp [LinearIdAllocator.firstFreeFrom] at h
  | succ fuel ih =>
    unfold LinearIdAllocator.firstFreeFrom at h
    by_cases hu : used i = true
    · rw [if_pos hu] at h
      obtain ⟨h₁, h₂, h₃⟩ := ih (i + 1) h
      exact ⟨h₁, by omega, by omega⟩
    · rw [if_neg hu] at h
      cases h
      exact ⟨by simpa using hu, Nat.le_refl _, by omega⟩

/-- What `allocate` returns: an identifier of the range that was not in use,
and the allocator in which it is marked. -/
theorem LinearIdAllocator.allocate_ok (a a₁ : LinearIdAllocator) (pick id : Nat)
    (h : a.allocate pick = .ok (id, a₁)) :
    a.used id = false ∧ id < a.capacity ∧ a₁.capacity = a.capacity ∧
      a₁.used = fun i => if i = id then true else a.used i := by
  unfold LinearIdAllocator.allocate at h
  cases hff : a.firstFree with
  | none => simp [hff] at h
  | some least =>
    simp only [hff, Except.ok.injEq, Prod.mk.injEq] at h
    obtain ⟨hid, ha⟩ := h
    have hl := LinearIdAllocator.firstFreeFrom_some a.used a.capacity 0 least hff
    have hfree : a.used id = false ∧ id < a.capacity := by
      by_cases hp : pick < a.capacity ∧ a.used pick = false
      · rw [if_pos hp] at hid
        subst hid
        exact ⟨hp.2, hp.1⟩
      · rw [if_neg hp] at hid
        subst hid
        exact ⟨hl.1, by omega⟩
    subst ha
    subst hid
    exact ⟨hfree.1, hfree.2, rfl, rfl⟩

theorem mapInsert_of_none {β : Type} (m : Nat → Option β) (k : Nat) (v : β) (h : m k = none) :
    mapInsert m k v = fun x => if x = k then some v else m x := by
  funext x
  unfold mapInsert
  rw [h]

theorem mapInsert_some {β : Type} (m : Nat → Option β) (k : Nat) (v : β) (x : Nat) (y : β)
    (h : mapInsert m k v x = some y) : m x = some y ∨ (x = k ∧ y = v) := by
  unfold mapInsert at h
  by_cases hx : x = k
  · rw [if_pos hx] at h
    cases hk : m k with
    | none =>
      rw [hk] at h
      simp only [Option.some.injEq] at h
      exact Or.inr ⟨hx, h.symm⟩
    | some old =>
      rw [hk] at h
      rw [hx]
      exact Or.inl (hk.trans h)
  · rw [if_neg hx] at h
    exact Or.inl h

theorem mapErase_some {β : Type} (m : Nat → Option β) (k x : Nat) (y : β)
    (h : mapErase m k x = some y) : x ≠ k ∧ m x = some y := by
  unfold mapErase at h
  by_cases hx : x = k
  · simp [hx] at h
  · rw [if_neg hx] at h
    exact ⟨hx, h⟩

namespace PhysicsWorld

/-- The successful calls of `addChild`. -/
theorem addChild_ok (w w₁ : PhysicsWorld) (data : Option ColliderPtr) (body : BodyPtr)
    (pick : Nat) (h : w.addChild data body pick = .ok w₁) :
    ∃ d id alloc, data = some d ∧ (w.records d).node ≠ none ∧ w.colliderMap d = none ∧
      w.uidAllocator.allocate pick = .ok (id, alloc) ∧
      w₁.uidAllocator = alloc ∧
      w₁.records = (fun p => if p = d then { w.records d with uid := id } else w.records p) ∧
      w₁.uidToCollider = mapInsert w.uidToCollider id d ∧
      w₁.colliderMap = (fun x => if x = d then some body else w.colliderMap x) ∧
      w₁.colliderReverseMap = mapInsert w.colliderReverseMap body d ∧
      w₁.collisions = w.collisions := by
  unfold addChild at h
  cases data with
  | none => simp at h
  | some d =>
    simp only at h
    by_cases hnode : (w.records d).node = none
    · simp [hnode] at h
    · rw [if_neg hnode] at h
      by_cases hhas : w.hasCollider d = true
      · simp [hhas] at h
      · rw [if_neg hhas] at h
        have hmap : w.colliderMap d = none := by
          unfold hasCollider at hhas
          cases hm : w.colliderMap d with
          | none => rfl
          | some b => simp [hm] at hhas
        cases halloc : w.uidAllocator.allocate pick with
        | error e => simp [halloc] at h
        | ok r =>
          obtain ⟨id, alloc⟩ := r
          simp only [halloc, Except.ok.injEq] at h
          subst h
          exact ⟨d, id, alloc, rfl, hnode, hmap, rfl, rfl, rfl, rfl,
            mapInsert_of_none _ _ _ hmap, rfl, rfl⟩

theorem addChild_uidInv (w w₁ : PhysicsWorld) (data : Option ColliderPtr) (body : BodyPtr)
    (pick : Nat) (hinv : UidInv w) (h : w.addChild data body pick = .ok w₁) : UidInv w₁ := by
  obtain ⟨d, id, alloc, _, _, hmap, halloc, ha, hrec, huid, hfwd, hrev, hcol⟩ :=
    addChild_ok w w₁ data body pick h
  obtain ⟨hunused, _, _, hused⟩ := LinearIdAllocator.allocate_ok _ _ _ _ halloc
  have hnokey : w.uidToCollider id = none := by
    cases hk : w.uidToCollider id with
    | none => rfl
    | some r =>
      have := hinv.uid_used id r hk
      rw [hunused] at this
      cases this
  rw [mapInsert_of_none _ _ _ hnokey] at huid
  have hent : ∀ u r, w₁.uidToCollider u = some r →
      (u = id ∧ r = d) ∨ (u ≠ id ∧ r ≠ d ∧ w.uidToCollider u = some r) := by
    intro u r hu
    rw [huid] at hu
    by_cases hui : u = id
    · simp only [hui, if_true, Option.some.injEq] at hu
      exact Or.inl ⟨hui, hu.symm⟩
    · simp only [hui, if_false] at hu
      refine Or.inr ⟨hui, ?_, hu⟩
      intro hrd
      subst hrd
      exact hinv.uid_registered u r hu hmap
  constructor
  · intro b r hb
    rw [hrev] at hb
    rw [hfwd]
    rcases mapInsert_some _ _ _ _ _ hb with hold | ⟨hbk, hrd⟩
    · have hf := hinv.reverse_registered b r hold
      have hrd : r ≠ d := by
        intro hrd
        subst hrd
        rw [hmap] at hf
        cases hf
      simp only [hrd, if_false]
      exact hf
    · simp [hbk, hrd]
  · intro u r hu
    rw [hrec]
    rcases hent u r hu with ⟨hui, hrd⟩ | ⟨_, hrd, hold⟩
    · simp [hui, hrd]
    · simp only [hrd, if_false]
      exact hinv.uid_key u r hold
  · intro u r hu
    rw [hfwd]
    rcases hent u r hu with ⟨_, hrd⟩ | ⟨_, hrd, hold⟩
    · simp [hrd]
    · simp only [hrd, if_false]
      exact hinv.uid_registered u r hold
  · intro u r hu
    rw [ha, hused]
    rcases hent u r hu with ⟨hui, _⟩ | ⟨hui, _, hold⟩
    · simp [hui]
    · simp only [hui, if_false]
      exact hinv.uid_used u r hold
  · rw [hcol]
    exact hinv.canonical_pairs

theorem mapErase_of_none {β : Type} (m : Nat → Option β) (k : Nat) (h : m k = none) :
    mapErase m k = m := by
  funext x
  unfold mapErase
  by_cases hx : x = k
  · rw [if_pos hx, hx, h]
  · rw [if_neg hx]

/-- The calls of `removeChild` in which the identifier can be freed: the call
returns and changes the state as follows. -/
theorem removeChild_some (w : PhysicsWorld) (d : ColliderPtr)
    (hfree : w.uidToCollider (w.records d).uid ≠ none →
      w.uidAllocator.used (w.records d).uid = true) :
    ∃ w₁, w.removeChild d = some w₁ ∧
      w₁.records = w.records ∧
      w₁.colliderMap = mapErase w.colliderMap d ∧
      w₁.colliderReverseMap =
        (match w.colliderMap d with
          | none => w.colliderReverseMap
          | some b => mapErase w.colliderReverseMap b) ∧
      w₁.uidToCollider = mapErase w.uidToCollider (w.records d).uid ∧
      (∀ i, i ≠ (w.records d).uid → w₁.uidAllocator.used i = w.uidAllocator.used i) ∧
      w₁.collisions = w.collisions.eraseUid (w.records d).uid := by
  unfold removeChild removeUid removeBody removeSlots
  cases hmap : w.colliderMap d with
  | none =>
    cases huid : w.uidToCollider (w.records d).uid with
    | none =>
      exact ⟨_, rfl, rfl, (mapErase_of_none _ _ hmap).symm, rfl,
        (mapErase_of_none _ _ huid).symm, fun _ _ => rfl, rfl⟩
    | some r =>
      have hused := hfree (by rw [huid]; simp)
      simp only [LinearIdAllocator.free, hused, if_true]
      refine ⟨_, rfl, rfl, (mapErase_of_none _ _ hmap).symm, rfl, rfl, ?_, rfl⟩
      intro i hi
      simp [hi]
  | some body =>
    cases huid : w.uidToCollider (w.records d).uid with
    | none =>
      simp only [huid]
      exact ⟨_, rfl, rfl, rfl, rfl, (mapErase_of_none _ _ huid).symm, fun _ _ => rfl, rfl⟩
    | some r =>
      have hused := hfree (by rw [huid]; simp)
      simp only [huid, LinearIdAllocator.free, hused, if_true]
      refine ⟨_, rfl, rfl, rfl, rfl, rfl, ?_, rfl⟩
      intro i hi
      simp [hi]

theorem removeChild_uidInv (w : PhysicsWorld) (d : ColliderPtr) (hinv : UidInv w) :
    ∃ w₁, w.removeChild d = some w₁ ∧ UidInv w₁ := by
  have hfree : w.uidToCollider (w.records d).uid ≠ none →
      w.uidAllocator.used (w.records d).uid = true := by
    intro hne
    cases hk : w.uidToCollider (w.records d).uid with
    | none => exact absurd hk hne
    | some r => exact hinv.uid_used _ r hk
  obtain ⟨w₁, hrem, hrec, hfwd, hrev, huid, hused, hcol⟩ := removeChild_some w d hfree
  refine ⟨w₁, hrem, ?_⟩
  have hent : ∀ u r, w₁.uidToCollider u = some r →
      u ≠ (w.records d).uid ∧ w.uidToCollider u = some r := by
    intro u r hu
    rw [huid] at hu
    unfold mapErase at hu
    by_cases hud : u = (w.records d).uid
    · simp [hud] at hu
    · rw [if_neg hud] at hu
      exact ⟨hud, hu⟩
  constructor
  · intro b r hb
    rw [hrev] at hb
    rw [hfwd]
    cases hmap : w.colliderMap d with
    | none =>
      simp only [hmap] at hb
      rw [mapErase_of_none _ _ hmap]
      exact hinv.reverse_registered b r hb
    | some bd =>
      simp only [hmap] at hb
      obtain ⟨hne, hold⟩ := mapErase_some _ _ _ _ hb
      have hf := hinv.reverse_registered b r hold
      have hrd : r ≠ d := by
        intro hrd
        subst hrd
        rw [hmap] at hf
        simp only [Option.some.injEq] at hf
        exact hne hf.symm
      unfold mapErase
      rw [if_neg hrd]
      exact hf
  · intro u r hu
    rw [hrec]
    exact hinv.uid_key u r (hent u r hu).2
  · intro u r hu
    obtain ⟨hud, hold⟩ := hent u r hu
    have hrd : r ≠ d := by
      intro hrd
      subst hrd
      exact hud (hinv.uid_key u r hold).symm
    rw [hfwd]
    unfold mapErase
    rw [if_neg hrd]
    exact hinv.uid_registered u r hold
  · intro u r hu
    obtain ⟨hud, hold⟩ := hent u r hu
    rw [hused u hud]
    exact hinv.uid_used u r hold
  · intro p hp
    rw [hcol] at hp
    exact hinv.canonical_pairs p ((CollisionSet.mem_eraseUid _ _ _).mp hp).1

theorem notifyCollisions_uidInv (w : PhysicsWorld) (ms : List Manifold) (hinv : UidInv w) :
    UidInv (w.notifyCollisions ms).1 := by
  constructor
  · exact hinv.reverse_registered
  · exact hinv.uid_key
  · exact hinv.uid_registered
  · exact hinv.uid_used
  · intro p hp
    rw [mem_notifyCollisions_collisions] at hp
    obtain ⟨m, _, hm⟩ := hp
    obtain ⟨d0, d1, _, _, rfl⟩ := (manifoldCollision_eq_some w m p).mp hm
    exact canonical_le _ _

theorem targetRemovedHandler_uidInv (w : PhysicsWorld) (hinv : UidInv w) :
    UidInv w.targetRemovedHandler := by
  constructor
  · intro b r h
    cases h
  · intro u d h
    cases h
  · intro u d h
    cases h
  · intro u d h
    cases h
  · exact hinv.canonical_pairs

theorem create_uidInv (records : ColliderPtr → ColliderData) :
    UidInv (PhysicsWorld.create records) := by
  constructor
  · intro b r h
    cases h
  · intro u d h
    cases h
  · intro u d h
    cases h
  · intro u d h
    cases h
  · intro p hp
    cases hp

end PhysicsWorld

theorem step_uidInv (w : PhysicsWorld) (op : Op) (hinv : UidInv w) :
    ∃ w₁ ns, step w op = some (w₁, ns) ∧ UidInv w₁ := by
  cases op with
  | addChild data body pick =>
    cases h : w.addChild data body pick with
    | error e => exact ⟨w, [], by simp only [step, h], hinv⟩
    | ok w₁ =>
      exact ⟨w₁, [], by simp only [step, h],
        PhysicsWorld.addChild_uidInv w w₁ data body pick hinv h⟩
  | removeChild d =>
    obtain ⟨w₁, hrem, hinv₁⟩ := PhysicsWorld.removeChild_uidInv w d hinv
    exact ⟨w₁, [], by simp only [step, hrem], hinv₁⟩
  | notifyCollisions ms =>
    exact ⟨_, _, rfl, PhysicsWorld.notifyCollisions_uidInv w ms hinv⟩
  | targetRemovedHandler =>
    exact ⟨_, _, rfl, PhysicsWorld.targetRemovedHandler_uidInv w hinv⟩

/-- Every sequence of calls returns, and keeps the invariant on identifiers. -/
theorem run_uidInv (ops : List Op) (w : PhysicsWorld) (hinv : UidInv w) :
    ∃ w₁ ns, run w ops = some (w₁, ns) ∧ UidInv w₁ := by
  induction ops generalizing w with
  | nil => exact ⟨w, [], rfl, hinv⟩
  | cons op ops ih =>
    obtain ⟨w₁, ns₁, hstep, hinv₁⟩ := step_uidInv w op hinv
    obtain ⟨w₂, ns₂, hrun, hinv₂⟩ := ih w₁ hinv₁
    refine ⟨w₂, ns₁ ++ ns₂, ?_, hinv₂⟩
    unfold run
    rw [hstep]
    simp only [hrun]

namespace PhysicsWorld

theorem addChild_consistent (w w₁ : PhysicsWorld) (data : Option ColliderPtr) (body : BodyPtr)
    (pick : Nat) (hc : RegistryConsistent w) (hfresh : ∀ r, w.colliderMap r ≠ some body)
    (h : w.addChild data body pick = .ok w₁) :
    RegistryConsistent w₁ ∧
      ∀ r b, w₁.colliderMap r = some b → b = body ∨ w.colliderMap r = some b := by
  obtain ⟨d, id, alloc, _, _, hmap, _, _, _, _, hfwd, hrev, _⟩ :=
    addChild_ok w w₁ data body pick h
  have hnorev : w.colliderReverseMap body = none := by
    cases hk : w.colliderReverseMap body with
    | none => rfl
    | some r => exact absurd ((hc r body).mpr hk) (hfresh r)
  rw [mapInsert_of_none _ _ _ hnorev] at hrev
  constructor
  · intro r b
    rw [hfwd, hrev]
    by_cases hrd : r = d
    · subst hrd
      simp only [if_true, Option.some.injEq]
      constructor
      · intro hb
        simp [hb]
      · intro hb
        by_cases hbb : b = body
        · exact hbb.symm
        · rw [if_neg hbb] at hb
          have := (hc r b).mpr hb
          rw [hmap] at this
          cases this
    · simp only [hrd, if_false]
      constructor
      · intro hf
        have hbb : b ≠ body := by
          intro hbb
          subst hbb
          exact hfresh r hf
        rw [if_neg hbb]
        exact (hc r b).mp hf
      · intro hb
        by_cases hbb : b = body
        · rw [if_pos hbb] at hb
          simp only [Option.some.injEq] at hb
          exact absurd hb.symm hrd
        · rw [if_neg hbb] at hb
          exact (hc r b).mpr hb
  · intro r b hf
    rw [hfwd] at hf
    by_cases hrd : r = d
    · simp only [hrd, if_true, Option.some.injEq] at hf
      exact Or.inl hf.symm
    · simp only [hrd, if_false] at hf
      exact Or.inr hf

theorem removeChild_consistent (w w₁ : PhysicsWorld) (d : ColliderPtr)
    (hc : RegistryConsistent w)
    (hfree : w.uidToCollider (w.records d).uid ≠ none →
      w.uidAllocator.used (w.records d).uid = true)
    (h : w.removeChild d = some w₁) :
    RegistryConsistent w₁ ∧ ∀ r b, w₁.colliderMap r = some b → w.colliderMap r = some b := by
  obtain ⟨w₂, hrem, _, hfwd, hrev, _, _, _⟩ := removeChild_some w d hfree
  rw [h] at hrem
  simp only [Option.some.injEq] at hrem
  subst hrem
  have hsub : ∀ r b, w₁.colliderMap r = some b → r ≠ d ∧ w.colliderMap r = some b := by
    intro r b hf
    rw [hfwd] at hf
    unfold mapErase at hf
    by_cases hrd : r = d
    · simp [hrd] at hf
    · rw [if_neg hrd] at hf
      exact ⟨hrd, hf⟩
  refine ⟨?_, fun r b hf => (hsub r b hf).2⟩
  intro r b
  cases hmap : w.colliderMap d with
  | none =>
    rw [hfwd, hrev, mapErase_of_none _ _ hmap]
    simp only [hmap]
    exact hc r b
  | some bd =>
    rw [hfwd, hrev]
    simp only [hmap]
    unfold mapErase
    by_cases hrd : r = d
    · subst hrd
      simp only [if_true]
      constructor
      · intro hf
        cases hf
      · intro hb
        by_cases hbb : b = bd
        · simp [hbb] at hb
        · rw [if_neg hbb] at hb
          have := (hc r b).mpr hb
          rw [hmap] at this
          simp only [Option.some.injEq] at this
          exact absurd this.symm hbb
    · rw [if_neg hrd]
      by_cases hbb : b = bd
      · subst hbb
        simp only [if_true]
        constructor
        · intro hf
          have := (hc r b).mp hf
          rw [(hc d b).mp hmap] at this
          simp only [Option.some.injEq] at this
          exact absurd this.symm hrd
        · intro hb
          cases hb
      · simp only [hbb, if_false]
        exact hc r b

end PhysicsWorld

theorem createdBodies_cons (op : Op) (ops : List Op) :
    createdBodies (op :: ops) = createdBodies [op] ++ createdBodies ops := by
  cases op <;> simp [createdBodies]

theorem step_consistent (w : PhysicsWorld) (op : Op) (huid : UidInv w)
    (hc : RegistryConsistent w)
    (hfresh : ∀ b ∈ createdBodies [op], ∀ r, w.colliderMap r ≠ some b) :
    ∃ w₁ ns, step w op = some (w₁, ns) ∧ UidInv w₁ ∧ RegistryConsistent w₁ ∧
      ∀ r b, w₁.colliderMap r = some b → b ∈ createdBodies [op] ∨ w.colliderMap r = some b := by
  obtain ⟨w₁, ns, hstep, huid₁⟩ := step_uidInv w op huid
  refine ⟨w₁, ns, hstep, huid₁, ?_⟩
  cases op with
  | addChild data body pick =>
    cases h : w.addChild data body pick with
    | error e =>
      simp only [step, h, Option.some.injEq, Prod.mk.injEq] at hstep
      rw [← hstep.1]
      exact ⟨hc, fun r b hf => Or.inr hf⟩
    | ok w₂ =>
      simp only [step, h, Option.some.injEq, Prod.mk.injEq] at hstep
      rw [← hstep.1]
      have hres := PhysicsWorld.addChild_consistent w w₂ data body pick hc
        (hfresh body (by simp [createdBodies])) h
      refine ⟨hres.1, ?_⟩
      intro r b hf
      rcases hres.2 r b hf with hb | hb
      · exact Or.inl (by simp [createdBodies, hb])
      · exact Or.inr hb
  | removeChild d =>
    cases h : w.removeChild d with
    | none => simp [step, h] at hstep
    | some w₂ =>
      simp only [step, h, Option.some.injEq, Prod.mk.injEq] at hstep
      rw [← hstep.1]
      have hfree : w.uidToCollider (w.records d).uid ≠ none →
          w.uidAllocator.used (w.records d).uid = true := by
        intro hne
        cases hk : w.uidToCollider (w.records d).uid with
        | none => exact absurd hk hne
        | some r => exact huid.uid_used _ r hk
      have hres := PhysicsWorld.removeChild_consistent w w₂ d hc hfree h
      exact ⟨hres.1, fun r b hf => Or.inr (hres.2 r b hf)⟩
  | notifyCollisions ms =>
    simp only [step, Option.some.injEq] at hstep
    have hw : w₁ = (w.notifyCollisions ms).1 := by rw [hstep]
    subst hw
    exact ⟨hc, fun r b hf => Or.inr hf⟩
  | targetRemovedHandler =>
    simp only [step, Option.some.injEq, Prod.mk.injEq] at hstep
    rw [← hstep.1]
    refine ⟨?_, ?_⟩
    · intro r b
      simp [PhysicsWorld.targetRemovedHandler]
    · intro r b hf
      cases hf

/-- Every sequence of calls that hands pairwise distinct bodies to `addChild`,
none of them the body of a registered record, returns and keeps the registry
invariants. -/
theorem run_consistent (ops : List Op) (w : PhysicsWorld) (huid : UidInv w)
    (hc : RegistryConsistent w) (hnd : (createdBodies ops).Nodup)
    (hlive : ∀ r b, w.colliderMap r = some b → b ∉ createdBodies ops) :
    ∃ w₁ ns, run w ops = some (w₁, ns) ∧ UidInv w₁ ∧ RegistryConsistent w₁ := by
  induction ops generalizing w with
  | nil => exact ⟨w, [], rfl, huid, hc⟩
  | cons op ops ih =>
    rw [createdBodies_cons] at hnd hlive
    have hfresh : ∀ b ∈ createdBodies [op], ∀ r, w.colliderMap r ≠ some b := by
      intro b hb r hf
      exact hlive r b hf (List.mem_append_left _ hb)
    obtain ⟨w₁, ns₁, hstep, huid₁, hc₁, hlive₁⟩ := step_consistent w op huid hc hfresh
    have hnd₁ : (createdBodies ops).Nodup := (List.nodup_append.mp hnd).2.1
    have hlive₂ : ∀ r b, w₁.colliderMap r = some b → b ∉ createdBodies ops := by
      intro r b hf hb
      rcases hlive₁ r b hf with hin | hold
      · exact (List.nodup_append.mp hnd).2.2 hin hb
      · exact hlive r b hold (List.mem_append_right _ hb)
    obtain ⟨w₂, ns₂, hrun, huid₂, hc₂⟩ := ih w₁ huid₁ hc₁ hnd₁ hlive₂
    refine ⟨w₂, ns₁ ++ ns₂, ?_, huid₂, hc₂⟩
    unfold run
    rw [hstep]
    simp only [hrun]

theorem create_consistent (records : ColliderPtr → ColliderData) :
    RegistryConsistent (PhysicsWorld.create records) := by
  intro r b
  simp [PhysicsWorld.create]

/-- The states reached from the empty world, bodies being pairwise distinct. -/
theorem run_create (records : ColliderPtr → ColliderData) (ops : List Op)
    (hnd : (createdBodies ops).Nodup) :
    ∃ w ns, run (PhysicsWorld.create records) ops = some (w, ns) ∧ UidInv w ∧
      RegistryConsistent w := by
  apply run_consistent ops _ (PhysicsWorld.create_uidInv records) (create_consistent records) hnd
  intro r b hf
  cases hf

/-- A call of `notifyCollisions` notifies only records found in the reverse
map or in the identifier map. -/
theorem notifyCollisions_not_mentions (w : PhysicsWorld) (ms : List Manifold) (d : ColliderPtr)
    (hd : Unreferenced w d) : ∀ n ∈ (w.notifyCollisions ms).2, ¬ n.mentions d := by
  intro n hn hm
  cases n with
  | collisionStarted x y =>
    obtain ⟨⟨m, _, hres⟩, _, _⟩ := (PhysicsWorld.collisionStarted_mem_notifyCollisions w ms x y).mp hn
    simp only [Notification.mentions] at hm
    rcases hm with rfl | rfl
    · rcases hres with ⟨h0, _⟩ | ⟨_, h1⟩
      · exact hd.1 _ h0
      · exact hd.1 _ h1
    · rcases hres with ⟨_, h1⟩ | ⟨h0, _⟩
      · exact hd.1 _ h1
      · exact hd.1 _ h0
  | collisionEnded x y =>
    obtain ⟨c, _, _, hres⟩ := (PhysicsWorld.collisionEnded_mem_notifyCollisions w ms x y).mp hn
    simp only [Notification.mentions] at hm
    rcases hm with rfl | rfl
    · rcases hres with ⟨h0, _⟩ | ⟨_, h1⟩
      · exact hd.2 _ h0
      · exact hd.2 _ h1
    · rcases hres with ⟨_, h1⟩ | ⟨h0, _⟩
      · exact hd.2 _ h1
      · exact hd.2 _ h0

/-- After `removeChild(d)` in a state that meets the registry invariants, no
map of the world holds `d` as a value. -/
theorem removeChild_unreferenced (w w₁ : PhysicsWorld) (d : ColliderPtr) (huid : UidInv w)
    (h : w.removeChild d = some w₁) : Unreferenced w₁ d := by
  have hfree : w.uidToCollider (w.records d).uid ≠ none →
      w.uidAllocator.used (w.records d).uid = true := by
    intro hne
    cases hk : w.uidToCollider (w.records d).uid with
    | none => exact absurd hk hne
    | some r => exact huid.uid_used _ r hk
  obtain ⟨w₂, hrem, _, _, hrev, huidmap, _, _⟩ := PhysicsWorld.removeChild_some w d hfree
  rw [h] at hrem
  simp only [Option.some.injEq] at hrem
  subst hrem
  constructor
  · intro b hb
    rw [hrev] at hb
    cases hmap : w.colliderMap d with
    | none =>
      simp only [hmap] at hb
      have := huid.reverse_registered b d hb
      rw [hmap] at this
      cases this
    | some bd =>
      simp only [hmap] at hb
      obtain ⟨hne, hold⟩ := mapErase_some _ _ _ _ hb
      have := huid.reverse_registered b d hold
      rw [hmap] at this
      simp only [Option.some.injEq] at this
      exact hne this.symm
  · intro u hu
    rw [huidmap] at hu
    obtain ⟨hne, hold⟩ := mapErase_some _ _ _ _ hu
    exact hne (huid.uid_key u d hold).symm

theorem step_unreferenced (w : PhysicsWorld) (op : Op) (d : ColliderPtr) (huid : UidInv w)
    (hd : Unreferenced w d) (hop : ∀ body pick, op ≠ Op.addChild (some d) body pick) :
    ∃ w₁ ns, step w op = some (w₁, ns) ∧ UidInv w₁ ∧ Unreferenced w₁ d ∧
      ∀ n ∈ ns, ¬ n.mentions d := by
  obtain ⟨w₁, ns, hstep, huid₁⟩ := step_uidInv w op huid
  refine ⟨w₁, ns, hstep, huid₁, ?_⟩
  cases op with
  | addChild data body pick =>
    cases h : w.addChild data body pick with
    | error e =>
      simp only [step, h, Option.some.injEq, Prod.mk.injEq] at hstep
      rw [← hstep.1, ← hstep.2]
      exact ⟨hd, fun n hn => by cases hn⟩
    | ok w₂ =>
      simp only [step, h, Option.some.injEq, Prod.mk.injEq] at hstep
      rw [← hstep.1, ← hstep.2]
      refine ⟨?_, fun n hn => by cases hn⟩
      obtain ⟨r, id, alloc, hdata, _, _, _, _, _, huidmap, _, hrev, _⟩ :=
        PhysicsWorld.addChild_ok w w₂ data body pick h
      have hrd : d ≠ r := by
        intro hrd
        subst hrd
        exact hop body pick (by rw [hdata])
      constructor
      · intro b hb
        rw [hrev] at hb
        rcases mapInsert_some _ _ _ _ _ hb with hold | hnew
        · exact hd.1 b hold
        · exact hrd hnew.2
      · intro u hu
        rw [huidmap] at hu
        rcases mapInsert_some _ _ _ _ _ hu with hold | hnew
        · exact hd.2 u hold
        · exact hrd hnew.2
  | removeChild r =>
    cases h : w.removeChild r with
    | none => simp [step, h] at hstep
    | some w₂ =>
      simp only [step, h, Option.some.injEq, Prod.mk.injEq] at hstep
      rw [← hstep.1, ← hstep.2]
      refine ⟨?_, fun n hn => by cases hn⟩
      have hfree : w.uidToCollider (w.records r).uid ≠ none →
          w.uidAllocator.used (w.records r).uid = true := by
        intro hne
        cases hk : w.uidToCollider (w.records r).uid with
        | none => exact absurd hk hne
        | some x => exact huid.uid_used _ x hk
      obtain ⟨w₃, hrem, _, _, hrev, huidmap, _, _⟩ := PhysicsWorld.removeChild_some w r hfree
      rw [h] at hrem
      simp only [Option.some.injEq] at hrem
      subst hrem
      constructor
      · intro b hb
        rw [hrev] at hb
        cases hmap : w.colliderMap r with
        | none =>
          simp only [hmap] at hb
          exact hd.1 b hb
        | some bd =>
          simp only [hmap] at hb
          exact hd.1 b (mapErase_some _ _ _ _ hb).2
      · intro u hu
        rw [huidmap] at hu
        exact hd.2 u (mapErase_some _ _ _ _ hu).2
  | notifyCollisions ms =>
    simp only [step, Option.some.injEq] at hstep
    have hw : w₁ = (w.notifyCollisions ms).1 := by rw [hstep]
    have hns : ns = (w.notifyCollisions ms).2 := by rw [hstep]
    subst hw
    subst hns
    exact ⟨hd, notifyCollisions_not_mentions w ms d hd⟩
  | targetRemovedHandler =>
    simp only [step, Option.some.injEq, Prod.mk.injEq] at hstep
    rw [← hstep.1, ← hstep.2]
    refine ⟨⟨?_, ?_⟩, fun n hn => by cases hn⟩
    · intro b hb
      cases hb
    · intro u hu
      cases hu

theorem run_unreferenced (ops : List Op) (w : PhysicsWorld) (d : ColliderPtr) (huid : UidInv w)
    (hd : Unreferenced w d) (hops : ∀ body pick, Op.addChild (some d) body pick ∉ ops) :
    ∃ w₁ ns, run w ops = some (w₁, ns) ∧ ∀ n ∈ ns, ¬ n.mentions d := by
  induction ops generalizing w with
  | nil => exact ⟨w, [], rfl, fun n hn => by cases hn⟩
  | cons op ops ih =>
    have hop : ∀ body pick, op ≠ Op.addChild (some d) body pick := by
      intro body pick hop
      exact hops body pick (by rw [hop]; exact List.mem_cons_self _ _)
    obtain ⟨w₁, ns₁, hstep, huid₁, hd₁, hns₁⟩ := step_unreferenced w op d huid hd hop
    obtain ⟨w₂, ns₂, hrun, hns₂⟩ := ih w₁ huid₁ hd₁
      (fun body pick hmem => hops body pick (List.mem_cons_of_mem _ hmem))
    refine ⟨w₂, ns₁ ++ ns₂, ?_, ?_⟩
    · unfold run
      rw [hstep]
      simp only [hrun]
    · intro n hn
      rcases List.mem_append.mp hn with h | h
      · exact hns₁ n h
      · exact hns₂ n h

/-- In a duplicate-free list, an element produced once by one member and by
no other member is produced once in all. -/
theorem count_flatMap_eq_one {α β : Type} [DecidableEq β] (l : List α) (f : α → List β)
    (e : β) (x : α) (hnd : l.Nodup) (hx : x ∈ l) (h₁ : (f x).count e = 1)
    (h₀ : ∀ y ∈ l, y ≠ x → e ∉ f y) : (l.flatMap f).count e = 1 := by
  induction l with
  | nil => cases hx
  | cons y ys ih =>
    rw [List.flatMap_cons, List.count_append]
    obtain ⟨hy, hys⟩ := List.nodup_cons.mp hnd
    rcases List.mem_cons.mp hx with hxy | hxys
    · subst hxy
      have hrest : (ys.flatMap f).count e = 0 := by
        apply List.count_eq_zero.mpr
        intro hmem
        obtain ⟨z, hz, hez⟩ := List.mem_flatMap.mp hmem
        have hzx : z ≠ x := fun hzx => hy (hzx ▸ hz)
        exact h₀ z (List.mem_cons_of_mem _ hz) hzx hez
      rw [h₁, hrest]
    · have hyx : y ≠ x := fun hyx => hy (hyx ▸ hxys)
      have hhead : (f y).count e = 0 :=
        List.count_eq_zero.mpr (h₀ y (List.mem_cons_self _ _) hyx)
      rw [hhead, ih hys hxys (fun z hz => h₀ z (List.mem_cons_of_mem _ hz)), Nat.zero_add]

theorem PhysicsWorld.collisionEnded_not_mem_manifoldNotifications (w : PhysicsWorld)
    (ms : List Manifold) (x y : ColliderPtr) :
    Notification.collisionEnded x y ∉ ms.flatMap w.manifoldNotifications := by
  intro hmem
  obtain ⟨m, _, hm⟩ := List.mem_flatMap.mp hmem
  obtain ⟨d0, d1, _, _, hs⟩ := (PhysicsWorld.mem_manifoldNotifications w m _).mp hm
  rcases ((PhysicsWorld.mem_startedNotifications w d0 d1 _).mp hs).2 with ⟨_, he⟩ | ⟨_, he⟩
  · cases he
  · cases he

/-- A lost pair `(a, b)` with `a ≠ b` ends once for the receiver `x` and the
partner `y` it resolves to, in a state where the identifier map is keyed by
the identifier of its records and the tracked pairs are canonical. -/
theorem PhysicsWorld.count_collisionEnded (w : PhysicsWorld) (ms : List Manifold)
    (c : Collision) (x y : ColliderPtr)
    (hkey : ∀ u d, w.uidToCollider u = some d → (w.records d).uid = u)
    (hcanon : ∀ p ∈ w.collisions.elems, p.1 ≤ p.2)
    (hne : c.1 ≠ c.2)
    (hprev : c ∈ w.collisions.elems)
    (hcur : c ∉ (w.notifyCollisions ms).1.collisions.elems)
    (hres : (w.uidToCollider c.1 = some x ∧ w.uidToCollider c.2 = some y) ∨
      (w.uidToCollider c.1 = some y ∧ w.uidToCollider c.2 = some x)) :
    (w.notifyCollisions ms).2.count (.collisionEnded x y) = 1 := by
  have hxy : x ≠ y := by
    intro hxy
    subst hxy
    rcases hres with ⟨h0, h1⟩ | ⟨h0, h1⟩
    · exact hne ((hkey _ _ h0).symm.trans (hkey _ _ h1))
    · exact hne ((hkey _ _ h0).symm.trans (hkey _ _ h1))
  rw [PhysicsWorld.notifyCollisions_snd, List.count_append,
    List.count_eq_zero.mpr (PhysicsWorld.collisionEnded_not_mem_manifoldNotifications w ms x y),
    Nat.zero_add]
  apply count_flatMap_eq_one _ _ _ c (CollisionSet.nodup _)
    ((CollisionSet.mem_diff _ _ _).mpr ⟨hprev, hcur⟩)
  · unfold PhysicsWorld.lostNotifications
    rcases hres with ⟨h0, h1⟩ | ⟨h0, h1⟩
    · rw [h0, h1]
      simp [List.count_cons, hxy, Ne.symm hxy]
    · rw [h0, h1]
      simp [List.count_cons, hxy, Ne.symm hxy]
  · intro p hp hpc hmem
    have hpprev := ((CollisionSet.mem_diff _ _ _).mp hp).1
    obtain ⟨d0, d1, h0, h1, he⟩ := (PhysicsWorld.mem_lostNotifications w p _).mp hmem
    have hp1 := hkey _ _ h0
    have hp2 := hkey _ _ h1
    have hle := hcanon p hpprev
    have hlec := hcanon c hprev
    apply hpc
    rcases hres with ⟨hc0, hc1⟩ | ⟨hc0, hc1⟩
    · have hx := hkey _ _ hc0
      have hy := hkey _ _ hc1
      rcases he with he | he
      · simp only [Notification.collisionEnded.injEq] at he
        obtain ⟨rfl, rfl⟩ := he
        exact Prod.ext (hp1.symm.trans hx) (hp2.symm.trans hy)
      · simp only [Notification.collisionEnded.injEq] at he
        obtain ⟨rfl, rfl⟩ := he
        exfalso
        omega
    · have hy := hkey _ _ hc0
      have hx := hkey _ _ hc1
      rcases he with he | he
      · simp only [Notification.collisionEnded.injEq] at he
        obtain ⟨rfl, rfl⟩ := he
        exfalso
        omega
      · simp only [Notification.collisionEnded.injEq] at he
        obtain ⟨rfl, rfl⟩ := he
        exact Prod.ext (hp1.symm.trans hy) (hp2.symm.trans hx)

/-! ## The claims on `notifyCollisions` -/

open PhysicsWorld

/-- C8: the tracked set after `notifyCollisions` is exactly the set of pairs
`(min u0 u1, max u0 u1)` over the manifolds whose two bodies both resolve
through the reverse map, to records of identifiers `u0` and `u1`; it is the
same whatever the previous tracked set was, and every stored pair has its
first component below or equal to the second. -/
theorem notifyCollisions_tracked_set (w : PhysicsWorld) (ms : List Manifold) :
    (∀ p : Collision, p ∈ (w.notifyCollisions ms).1.collisions.elems ↔
        ∃ m ∈ ms, ∃ d0 d1, w.colliderReverseMap m.body0 = some d0 ∧
          w.colliderReverseMap m.body1 = some d1 ∧
          p = (min (w.records d0).uid (w.records d1).uid,
               max (w.records d0).uid (w.records d1).uid)) ∧
      (∀ previous : CollisionSet,
        (({ w with collisions := previous } : PhysicsWorld).notifyCollisions ms).1.collisions =
          (w.notifyCollisions ms).1.collisions) ∧
      (∀ p ∈ (w.notifyCollisions ms).1.collisions.elems, p.1 ≤ p.2) := by
  refine ⟨?_, ?_, ?_⟩
  · intro p
    rw [mem_notifyCollisions_collisions]
    simp only [manifoldCollision_eq_some, canonical_eq_min_max]
  · intro previous
    apply CollisionSet.ext_mem
    intro p
    simp only [mem_notifyCollisions_collisions, manifoldCollision_eq_some]
  · intro p hp
    rw [mem_notifyCollisions_collisions] at hp
    obtain ⟨m, _, hm⟩ := hp
    obtain ⟨d0, d1, _, _, rfl⟩ := (manifoldCollision_eq_some w m p).mp hm
    exact canonical_le _ _

/-- C3: when `notifyCollisions` runs twice in succession on the same manifold
list, the second run delivers no notification at all and leaves the tracked set
as the first run produced it. -/
theorem notifyCollisions_twice_silent (w : PhysicsWorld) (ms : List Manifold) :
    ((w.notifyCollisions ms).1.notifyCollisions ms).2 = [] ∧
      ((w.notifyCollisions ms).1.notifyCollisions ms).1.collisions =
        (w.notifyCollisions ms).1.collisions := by
  have hsame : ((w.notifyCollisions ms).1.notifyCollisions ms).1.collisions =
      (w.notifyCollisions ms).1.collisions := by
    apply CollisionSet.ext_mem
    intro p
    simp only [mem_notifyCollisions_collisions, manifoldCollision_eq_some]
    exact Iff.rfl
  refine ⟨?_, hsame⟩
  rw [notifyCollisions_snd, hsame, CollisionSet.diff_self]
  simp only [List.flatMap_nil, List.append_nil]
  apply List.eq_nil_iff_forall_not_mem.mpr
  intro n hn
  obtain ⟨m, hm, hmem⟩ := List.mem_flatMap.mp hn
  rw [manifoldNotifications_after_notify w ms m hm] at hmem
  cases hmem

/-- C9: exchanging `body0` and `body1` in any of the manifolds gives the same
tracked set after `notifyCollisions` and the same set of delivered
notifications. -/
theorem notifyCollisions_body_order (w : PhysicsWorld) (ms : List Manifold)
    (flips : List Bool) :
    (w.notifyCollisions (swapSome ms flips)).1.collisions = (w.notifyCollisions ms).1.collisions ∧
      ∀ n : Notification,
        n ∈ (w.notifyCollisions (swapSome ms flips)).2 ↔ n ∈ (w.notifyCollisions ms).2 := by
  have hsame : (w.notifyCollisions (swapSome ms flips)).1.collisions =
      (w.notifyCollisions ms).1.collisions := by
    apply CollisionSet.ext_mem
    intro p
    simp only [mem_notifyCollisions_collisions]
    exact exists_mem_swapSome (fun m => w.manifoldCollision m = some p)
      (fun m => by simp only [manifoldCollision_swap]) ms flips
  refine ⟨hsame, ?_⟩
  intro n
  rw [notifyCollisions_snd, notifyCollisions_snd, hsame]
  simp only [List.mem_append, List.mem_flatMap]
  rw [exists_mem_swapSome (fun m => n ∈ w.manifoldNotifications m)
    (fun m => mem_manifoldNotifications_swap w m n) ms flips]

/-- C1: on a manifold list in which two manifolds report the same two bodies,
of registered colliders `10` (trigger enabled) and `11` whose pair is not
tracked yet, `collisionStarted(10, 11)` is delivered twice by one call of
`notifyCollisions`, not once. -/
theorem notifyCollisions_duplicate_manifolds_started_twice :
    (run (PhysicsWorld.create exampleRecords)
        [.addChild (some 10) 100 0, .addChild (some 11) 101 1]).map
      (fun r => (r.1.colliderReverseMap 100, r.1.colliderReverseMap 101,
        r.1.collisions.elems, (r.1.records 10).triggerCollisions,
        (r.1.notifyCollisions [⟨100, 101⟩, ⟨100, 101⟩]).2.count (.collisionStarted 10 11))) =
      some (some 10, some 11, [], true, 2) := by
  decide

/-- C4: `removeChild(r)`, for a registered record `r` whose identifier can be
freed, returns, and the tracked set is then exactly the previous one without
the pairs whose first or second component is the identifier of `r`. -/
theorem removeChild_purges_tracked_pairs (w : PhysicsWorld) (r : ColliderPtr)
    (hreg : w.hasCollider r = true)
    (hfree : w.uidToCollider (w.records r).uid ≠ none →
      w.uidAllocator.used (w.records r).uid = true) :
    ∃ w₁, w.removeChild r = some w₁ ∧
      ∀ p : Collision, p ∈ w₁.collisions.elems ↔
        (p ∈ w.collisions.elems ∧ p.1 ≠ (w.records r).uid ∧ p.2 ≠ (w.records r).uid) := by
  have _ := hreg
  unfold removeChild removeUid removeBody removeSlots
  cases hmap : w.colliderMap r with
  | none =>
    cases huid : w.uidToCollider (w.records r).uid with
    | none =>
      refine ⟨_, rfl, ?_⟩
      intro p
      exact CollisionSet.mem_eraseUid _ _ _
    | some d =>
      have hused := hfree (by rw [huid]; simp)
      simp only [LinearIdAllocator.free, hused, if_true]
      refine ⟨_, rfl, ?_⟩
      intro p
      exact CollisionSet.mem_eraseUid _ _ _
  | some body =>
    cases huid : w.uidToCollider (w.records r).uid with
    | none =>
      simp only [huid]
      refine ⟨_, rfl, ?_⟩
      intro p
      exact CollisionSet.mem_eraseUid _ _ _
    | some d =>
      have hused := hfree (by rw [huid]; simp)
      simp only [huid, LinearIdAllocator.free, hused, if_true]
      refine ⟨_, rfl, ?_⟩
      intro p
      exact CollisionSet.mem_eraseUid _ _ _

/-- Witness of C4: removing the record `11` (identifier `1`) of `exampleWorld`,
whose tracked pairs are `(0,1)`, `(0,2)` and `(1,2)`. -/
theorem removeChild_purges_tracked_pairs_witness :
    exampleWorld.hasCollider 11 = true ∧
      exampleWorld.collisions.elems = [(0, 1), (0, 2), (1, 2)] ∧
      ∃ w₁, exampleWorld.removeChild 11 = some w₁ ∧
        ∀ p : Collision, p ∈ w₁.collisions.elems ↔
          (p ∈ exampleWorld.collisions.elems ∧ p.1 ≠ (exampleWorld.records 11).uid ∧
            p.2 ≠ (exampleWorld.records 11).uid) :=
  ⟨by decide, by decide,
    removeChild_purges_tracked_pairs exampleWorld 11 (by decide) (fun _ => by decide)⟩

/-- In a state reached from the empty world, a lost pair `(a, b)` with `a ≠ b`
whose identifiers resolve to `A` and `B` delivers `collisionEnded(A, B)` and
`collisionEnded(B, A)` once each, whatever the trigger flags: the tracked pairs
are canonical and every record of the identifier map is stored under its own
identifier, so no other lost pair resolves to the same two records. -/
theorem collisionEnded_once_of_distinct_identifiers (records : ColliderPtr → ColliderData)
    (ops : List Op) (w : PhysicsWorld) (ns : List Notification) (ms : List Manifold)
    (a b : Nat) (A B : ColliderPtr)
    (hrun : run (PhysicsWorld.create records) ops = some (w, ns))
    (hab : a ≠ b)
    (hprev : (a, b) ∈ w.collisions.elems)
    (hcur : (a, b) ∉ (w.notifyCollisions ms).1.collisions.elems)
    (hA : w.uidToCollider a = some A) (hB : w.uidToCollider b = some B) :
    (w.notifyCollisions ms).2.count (.collisionEnded A B) = 1 ∧
      (w.notifyCollisions ms).2.count (.collisionEnded B A) = 1 := by
  obtain ⟨w₀, ns₀, hrun₀, huid⟩ :=
    run_uidInv ops (PhysicsWorld.create records) (PhysicsWorld.create_uidInv records)
  rw [hrun] at hrun₀
  simp only [Option.some.injEq, Prod.mk.injEq] at hrun₀
  obtain ⟨hw, _⟩ := hrun₀
  subst hw
  have hkey := huid.uid_key
  have hcanon := huid.canonical_pairs
  exact ⟨PhysicsWorld.count_collisionEnded w ms (a, b) A B hkey hcanon hab hprev hcur
      (Or.inl ⟨hA, hB⟩),
    PhysicsWorld.count_collisionEnded w ms (a, b) B A hkey hcanon hab hprev hcur
      (Or.inr ⟨hA, hB⟩)⟩

/-- C2: a lost pair whose two identifiers resolve delivers the same
`collisionEnded` notification twice. The record `12` is registered under the
identifier `0` and removed, `10` is registered under `0`, `12` is removed once
more, which frees `0` and erases the entry of `10` from the identifier map, and
`11` is registered under `0`. The bodies `100` and `101` of `10` and `11` touch
during one frame, so the pair `(0, 0)` is tracked, and not during the next: the
pair is lost, both its identifiers resolve to the record `11`, and
`collisionEnded(11, 11)` is delivered twice while `10` is notified of
nothing. -/
theorem collisionEnded_shared_identifier_twice :
    (run (PhysicsWorld.create exampleRecords)
        [.addChild (some 12) 102 0, .removeChild 12, .addChild (some 10) 100 0,
          .removeChild 12, .addChild (some 11) 101 0,
          .notifyCollisions [⟨100, 101⟩]]).map
      (fun r => (r.1.hasCollider 10, r.1.hasCollider 11, r.1.collisions.elems,
        (r.1.notifyCollisions []).1.collisions.elems, r.1.uidToCollider 0,
        (r.1.notifyCollisions []).2)) =
      some (true, true, [(0, 0)], [], some 11,
        [.collisionEnded 11 11, .collisionEnded 11 11]) := by
  rfl

/-! ## The claims on sequences of calls -/

/-- C7: `removeChild(r)` changes the state for a record `r` that is not
registered. The record `12` was registered under the identifier `0` and
removed; `10` is then registered under `0` and `11` under `1`, and their bodies
touch. `removeChild(12)`, with `hasCollider(12)` false, frees the identifier
`0`, erases it from the identifier map and erases the tracked pair `(0, 1)`. -/
theorem removeChild_unregistered_changes_state :
    (run (PhysicsWorld.create exampleRecords)
        [.addChild (some 12) 102 0, .removeChild 12, .addChild (some 10) 100 0,
          .addChild (some 11) 101 1, .notifyCollisions [⟨100, 101⟩]]).map
      (fun r => (r.1.hasCollider 12, r.1.uidToCollider 0, r.1.uidAllocator.used 0,
        r.1.collisions.elems,
        (r.1.removeChild 12).map
          (fun w₁ => (w₁.uidToCollider 0, w₁.uidAllocator.used 0, w₁.collisions.elems)))) =
      some (false, some 10, true, [(0, 1)], some (none, false, [])) := by
  rfl

/-- C6: two registered records with the same identifier. The record `12` is
registered under the identifier `0` and removed, `10` is registered under `0`,
`12` is removed once more, which frees `0` again, and `11` is registered under
`0`: `10` and `11` are both registered with the identifier `0`. -/
theorem registered_records_share_identifier :
    (run (PhysicsWorld.create exampleRecords)
        [.addChild (some 12) 102 0, .removeChild 12, .addChild (some 10) 100 0,
          .removeChild 12, .addChild (some 11) 101 0]).map
      (fun r => (r.1.hasCollider 10, r.1.hasCollider 11, (r.1.records 10).uid,
        (r.1.records 11).uid)) =
      some (true, true, 0, 0) := by
  decide


/-- C10: in every state reached from the empty world by a sequence of calls in
which the bodies created by `addChild` are pairwise distinct, a record is a key
of the forward map exactly when the body stored for it is a key of the reverse
map and maps back to it, and the reverse map has no other key. -/
theorem registry_maps_consistent (records : ColliderPtr → ColliderData) (ops : List Op)
    (hnd : (createdBodies ops).Nodup) :
    ∃ w ns, run (PhysicsWorld.create records) ops = some (w, ns) ∧
      (∀ r, w.hasCollider r = true ↔
        ∃ b, w.colliderMap r = some b ∧ w.colliderReverseMap b = some r) ∧
      (∀ b r, w.colliderReverseMap b = some r → w.colliderMap r = some b) := by
  obtain ⟨w, ns, hrun, _, hc⟩ := run_create records ops hnd
  refine ⟨w, ns, hrun, ?_, fun b r hb => (hc r b).mpr hb⟩
  intro r
  unfold PhysicsWorld.hasCollider
  cases hmap : w.colliderMap r with
  | none => simp
  | some b =>
    simp only [Option.isSome_some, Option.some.injEq, exists_eq_left', true_iff]
    exact (hc r b).mp hmap

/-- Witness of C10: two registrations, a removal, a detachment and a new
registration. -/
theorem registry_maps_consistent_witness :
    (createdBodies [.addChild (some 10) 100 0, .addChild (some 11) 101 1, .removeChild 10,
        .targetRemovedHandler, .addChild (some 12) 102 0]).Nodup ∧
      ∃ w ns, run (PhysicsWorld.create exampleRecords)
          [.addChild (some 10) 100 0, .addChild (some 11) 101 1, .removeChild 10,
            .targetRemovedHandler, .addChild (some 12) 102 0] = some (w, ns) ∧
        (∀ r, w.hasCollider r = true ↔
          ∃ b, w.colliderMap r = some b ∧ w.colliderReverseMap b = some r) ∧
        (∀ b r, w.colliderReverseMap b = some r → w.colliderMap r = some b) :=
  ⟨by decide, registry_maps_consistent exampleRecords _ (by decide)⟩

/-- C5: in a state reached from the empty world, once `removeChild(B)` has been
called for a registered record `B`, and as long as `addChild(B)` is not called
again, every later call returns and no call of `notifyCollisions`, for any
manifold list, delivers a notification of which `B` is the receiver or the
partner. -/
theorem removed_collider_not_notified (records : ColliderPtr → ColliderData)
    (pre post : List Op) (w : PhysicsWorld) (ns : List Notification) (B : ColliderPtr)
    (hpre : run (PhysicsWorld.create records) pre = some (w, ns))
    (hreg : w.hasCollider B = true)
    (hpost : ∀ body pick, Op.addChild (some B) body pick ∉ post) :
    ∃ w₁ ns₁, run w (Op.removeChild B :: post) = some (w₁, ns₁) ∧
      ∀ n ∈ ns₁, ¬ n.mentions B := by
  have _ := hreg
  obtain ⟨w₀, ns₀, hrun, huid⟩ :=
    run_uidInv pre (PhysicsWorld.create records) (PhysicsWorld.create_uidInv records)
  rw [hpre] at hrun
  simp only [Option.some.injEq, Prod.mk.injEq] at hrun
  obtain ⟨hw, _⟩ := hrun
  subst hw
  obtain ⟨w₁, hrem, huid₁⟩ := PhysicsWorld.removeChild_uidInv w B huid
  have hun := removeChild_unreferenced w w₁ B huid hrem
  obtain ⟨w₂, ns₂, hrun₂, hns₂⟩ := run_unreferenced post w₁ B huid₁ hun hpost
  refine ⟨w₂, [] ++ ns₂, ?_, ?_⟩
  · unfold run
    simp only [step, hrem, hrun₂]
  · simpa using hns₂

/-- Witness of C5: in `exampleWorld` the record `11` touches `10` and `12`; it
is removed, and two frames follow, the first one still reporting its body. -/
theorem removed_collider_not_notified_witness :
    exampleWorld.hasCollider 11 = true ∧
      ∃ w₁ ns₁, run exampleWorld [.removeChild 11, .notifyCollisions [⟨100, 101⟩, ⟨102, 100⟩],
          .notifyCollisions []] = some (w₁, ns₁) ∧
        ∀ n ∈ ns₁, ¬ n.mentions 11 :=
  ⟨by decide,
    removed_collider_not_notified exampleRecords
      [.addChild (some 10) 100 0, .addChild (some 11) 101 1, .addChild (some 12) 102 2,
        .notifyCollisions [⟨100, 101⟩, ⟨101, 102⟩, ⟨102, 100⟩]]
      [.notifyCollisions [⟨100, 101⟩, ⟨102, 100⟩], .notifyCollisions []]
      exampleWorld [.collisionStarted 10 11, .collisionStarted 10 12] 11
      rfl (by decide)
      (by intro body pick h; simp at h)⟩

/-! ## Facts on the capacity of the allocator -/

theorem LinearIdAllocator.firstFreeFrom_none (used : Nat → Bool) (fuel i : Nat)
    (h : ∀ k, i ≤ k → k < i + fuel → used k = true) :
    LinearIdAllocator.firstFreeFrom used fuel i = none := by
  induction fuel generalizing i with
  | zero => rfl
  | succ fuel ih =>
    unfold LinearIdAllocator.firstFreeFrom
    rw [if_pos (h i (Nat.le_refl _) (by omega))]
    exact ih (i + 1) (fun k h₁ h₂ => h k (by omega) (by omega))

theorem LinearIdAllocator.firstFreeFrom_isSome (used : Nat → Bool) (fuel i k : Nat)
    (h₁ : i ≤ k) (h₂ : k < i + fuel) (hk : used k = false) :
    ∃ j, LinearIdAllocator.firstFreeFrom used fuel i = some j := by
  induction fuel generalizing i with
  | zero => omega
  | succ fuel ih =>
    unfold LinearIdAllocator.firstFreeFrom
    by_cases hu : used i = true
    · rw [if_pos hu]
      have hik : i ≠ k := by
        intro hik
        rw [hik, hk] at hu
        cases hu
      exact ih (i + 1) (by omega) (by omega)
    · rw [if_neg hu]
      exact ⟨i, rfl⟩

/-- The call `allocate()` fails when every identifier of the range is in use. -/
theorem LinearIdAllocator.allocate_exhausted (a : LinearIdAllocator) (pick : Nat)
    (h : ∀ k, k < a.capacity → a.used k = true) : a.allocate pick = .error .exhausted := by
  unfold LinearIdAllocator.allocate LinearIdAllocator.firstFree
  rw [LinearIdAllocator.firstFreeFrom_none a.used a.capacity 0
    (fun k _ hk => h k (by omega))]

/-- The call `allocate()` returns when an identifier of the range is free. -/
theorem LinearIdAllocator.allocate_isOk (a : LinearIdAllocator) (pick k : Nat)
    (hk : k < a.capacity) (hfree : a.used k = false) :
    ∃ id a₁, a.allocate pick = .ok (id, a₁) := by
  obtain ⟨j, hj⟩ := LinearIdAllocator.firstFreeFrom_isSome a.used a.capacity 0 k
    (Nat.zero_le _) (by omega) hfree
  unfold LinearIdAllocator.allocate LinearIdAllocator.firstFree
  rw [hj]
  exact ⟨_, _, rfl⟩

theorem LinearIdAllocator.usedCount_create (capacity : Nat) :
    (LinearIdAllocator.create capacity).usedCount = 0 := by
  simp [LinearIdAllocator.usedCount, LinearIdAllocator.create]

theorem LinearIdAllocator.usedCount_allocate (a a₁ : LinearIdAllocator) (pick id : Nat)
    (h : a.allocate pick = .ok (id, a₁)) : a₁.usedCount = a.usedCount + 1 := by
  obtain ⟨hunused, hid, hcap, hused⟩ := LinearIdAllocator.allocate_ok a a₁ pick id h
  unfold LinearIdAllocator.usedCount
  have hset : (Finset.range a₁.capacity).filter (fun i => a₁.used i = true) =
      insert id ((Finset.range a.capacity).filter (fun i => a.used i = true)) := by
    ext i
    simp only [Finset.mem_filter, Finset.mem_range, Finset.mem_insert, hcap, hused]
    by_cases hi : i = id
    · simp [hi, hid]
    · simp [hi]
  rw [hset, Finset.card_insert_of_not_mem]
  simp [hunused]

theorem LinearIdAllocator.exists_free (a : LinearIdAllocator)
    (h : a.usedCount < a.capacity) : ∃ k, k < a.capacity ∧ a.used k = false := by
  by_contra hall
  have hfull : (Finset.range a.capacity).filter (fun i => a.used i = true) =
      Finset.range a.capacity := by
    apply Finset.filter_true_of_mem
    intro k hk
    cases hu : a.used k with
    | true => rfl
    | false => exact absurd ⟨k, Finset.mem_range.mp hk, hu⟩ hall
  unfold LinearIdAllocator.usedCount at h
  rw [hfull, Finset.card_range] at h
  omega

theorem LinearIdAllocator.all_used (a : LinearIdAllocator)
    (h : a.usedCount = a.capacity) : ∀ k, k < a.capacity → a.used k = true := by
  intro k hk
  have hfull : (Finset.range a.capacity).filter (fun i => a.used i = true) =
      Finset.range a.capacity := by
    apply Finset.eq_of_subset_of_card_le (Finset.filter_subset _ _)
    rw [Finset.card_range]
    unfold LinearIdAllocator.usedCount at h
    omega
  have hmem : k ∈ (Finset.range a.capacity).filter (fun i => a.used i = true) := by
    rw [hfull]
    exact Finset.mem_range.mpr hk
  exact (Finset.mem_filter.mp hmem).2

/-- A call of `addChild` on a valid record that is not registered returns when
the allocator has a free identifier. -/
theorem PhysicsWorld.addChild_isOk (w : PhysicsWorld) (d : ColliderPtr) (body : BodyPtr)
    (pick : Nat) (hnode : (w.records d).node ≠ none) (hmap : w.colliderMap d = none)
    (hroom : w.uidAllocator.usedCount < w.uidAllocator.capacity) :
    ∃ w₁, w.addChild (some d) body pick = .ok w₁ := by
  obtain ⟨k, hk, hfree⟩ := LinearIdAllocator.exists_free _ hroom
  obtain ⟨id, a₁, halloc⟩ := LinearIdAllocator.allocate_isOk w.uidAllocator pick k hk hfree
  have hreg : ¬ (w.hasCollider d = true) := by
    simp [PhysicsWorld.hasCollider, hmap]
  unfold PhysicsWorld.addChild
  simp only [hnode, hreg, if_false, halloc]
  exact ⟨_, rfl⟩

/-- A call of `addChild` on a valid record that is not registered throws the
capacity error when every identifier is in use. -/
theorem PhysicsWorld.addChild_exhausted (w : PhysicsWorld) (d : ColliderPtr) (body : BodyPtr)
    (pick : Nat) (hnode : (w.records d).node ≠ none) (hmap : w.colliderMap d = none)
    (hfull : w.uidAllocator.usedCount = w.uidAllocator.capacity) :
    w.addChild (some d) body pick = .error .exhausted := by
  have halloc := LinearIdAllocator.allocate_exhausted w.uidAllocator pick
    (LinearIdAllocator.all_used _ hfull)
  have hreg : ¬ (w.hasCollider d = true) := by
    simp [PhysicsWorld.hasCollider, hmap]
  unfold PhysicsWorld.addChild
  simp only [hnode, hreg, if_false, halloc, Bool.false_eq_true]

/-- Registrations of distinct valid records that are not registered yet all
return as long as the allocator has room for them. -/
theorem addChildren_ok (calls : List (ColliderPtr × BodyPtr × Nat)) (w : PhysicsWorld)
    (hroom : w.uidAllocator.usedCount + calls.length ≤ w.uidAllocator.capacity)
    (hnd : (calls.map (fun c => c.1)).Nodup)
    (hfresh : ∀ c ∈ calls, w.colliderMap c.1 = none)
    (hvalid : ∀ c ∈ calls, (w.records c.1).node ≠ none) :
    ∃ w₁, addChildren w calls = .ok w₁ ∧
      w₁.uidAllocator.usedCount = w.uidAllocator.usedCount + calls.length ∧
      w₁.uidAllocator.capacity = w.uidAllocator.capacity ∧
      (∀ r, r ∉ calls.map (fun c => c.1) → w₁.colliderMap r = w.colliderMap r) ∧
      (∀ r, (w₁.records r).node = (w.records r).node) := by
  induction calls generalizing w with
  | nil => exact ⟨w, rfl, rfl, rfl, fun _ _ => rfl, fun _ => rfl⟩
  | cons c calls ih =>
    obtain ⟨d, body, pick⟩ := c
    simp only [List.length_cons] at hroom
    simp only [List.map_cons, List.nodup_cons] at hnd
    have hnode := hvalid (d, body, pick) (List.mem_cons_self _ _)
    have hmap := hfresh (d, body, pick) (List.mem_cons_self _ _)
    obtain ⟨w₁, hadd⟩ := PhysicsWorld.addChild_isOk w d body pick hnode hmap (by omega)
    obtain ⟨d', id, alloc, hd, _, _, halloc, ha, hrec, _, hfwd, _, _⟩ :=
      PhysicsWorld.addChild_ok w w₁ (some d) body pick hadd
    simp only [Option.some.injEq] at hd
    subst hd
    have hcount := LinearIdAllocator.usedCount_allocate _ _ _ _ halloc
    have hcap := (LinearIdAllocator.allocate_ok _ _ _ _ halloc).2.2.1
    rw [← ha] at hcount hcap
    have hnodes : ∀ r, (w₁.records r).node = (w.records r).node := by
      intro r
      rw [hrec]
      by_cases hr : r = d
      · simp [hr]
      · simp [hr]
    have hfresh₁ : ∀ c ∈ calls, w₁.colliderMap c.1 = none := by
      intro c hc
      have hcd : c.1 ≠ d := by
        intro hcd
        exact hnd.1 (hcd ▸ List.mem_map_of_mem (fun c => c.1) hc)
      rw [hfwd]
      simp only [hcd, if_false]
      exact hfresh c (List.mem_cons_of_mem _ hc)
    have hvalid₁ : ∀ c ∈ calls, (w₁.records c.1).node ≠ none := by
      intro c hc
      rw [hnodes]
      exact hvalid c (List.mem_cons_of_mem _ hc)
    obtain ⟨w₂, hrun, hcount₂, hcap₂, hmap₂, hnodes₂⟩ :=
      ih w₁ (by omega) hnd.2 hfresh₁ hvalid₁
    refine ⟨w₂, ?_, by simp only [List.length_cons]; omega, by omega, ?_, ?_⟩
    · simp only [addChildren, hadd, hrun]
    · intro r hr
      simp only [List.map_cons, List.mem_cons, not_or] at hr
      rw [hmap₂ r hr.2, hfwd]
      simp only [hr.1, if_false]
    · intro r
      rw [hnodes₂, hnodes]

/-! ## The claims on the errors of `addChild` and on detachment -/

/-- C11, as the code has it: for a registered record `r` that has an owning
node, `addChild(r)` throws the duplicate-registration error, and the call
leaves the whole state (allocator, records, the three maps and the tracked set)
as it was. -/
theorem addChild_duplicate (w : PhysicsWorld) (r : ColliderPtr) (body : BodyPtr) (pick : Nat)
    (hreg : w.hasCollider r = true) (hnode : (w.records r).node ≠ none) :
    w.addChild (some r) body pick = .error .duplicate ∧
      step w (.addChild (some r) body pick) = some (w, []) := by
  have h : w.addChild (some r) body pick = .error .duplicate := by
    unfold PhysicsWorld.addChild
    simp only [hnode, hreg, if_false, if_true]
  exact ⟨h, by simp only [step, h]⟩

/-- Witness of C11: the record `11` of `exampleWorld` is added once more. -/
theorem addChild_duplicate_witness :
    exampleWorld.hasCollider 11 = true ∧ (exampleWorld.records 11).node ≠ none ∧
      exampleWorld.addChild (some 11) 103 3 = .error .duplicate ∧
      step exampleWorld (.addChild (some 11) 103 3) = some (exampleWorld, []) :=
  ⟨by decide, by decide, addChild_duplicate exampleWorld 11 103 3 (by decide) (by decide)⟩

/-- C11 as stated fails for a registered record whose node is `nullptr`: the
record `11` of `nodeLostWorld` is registered and `addChild(11)` throws the
invalid-argument error, not the duplicate-registration one. -/
theorem addChild_registered_without_node :
    nodeLostWorld.hasCollider 11 = true ∧
      nodeLostWorld.addChild (some 11) 103 3 = .error .invalidArgument ∧
      nodeLostWorld.addChild (some 11) 103 3 ≠ .error .duplicate :=
  ⟨by decide, rfl, by
    intro h
    have h₁ : nodeLostWorld.addChild (some 11) 103 3 = .error .invalidArgument := rfl
    rw [h₁] at h
    cases h⟩

/-- C12: `addChild` throws the invalid-argument error exactly when the record
is `nullptr` or has no owning node, also when the record is registered, and the
call then leaves the whole state as it was. -/
theorem addChild_invalid_argument (w : PhysicsWorld) (data : Option ColliderPtr)
    (body : BodyPtr) (pick : Nat) :
    (w.addChild data body pick = .error .invalidArgument ↔
        (data = none ∨ ∃ d, data = some d ∧ (w.records d).node = none)) ∧
      (∀ d, data = some d → (w.records d).node = none → w.hasCollider d = true →
        w.addChild data body pick = .error .invalidArgument) ∧
      (w.addChild data body pick = .error .invalidArgument →
        step w (.addChild data body pick) = some (w, [])) := by
  have hiff : w.addChild data body pick = .error .invalidArgument ↔
      (data = none ∨ ∃ d, data = some d ∧ (w.records d).node = none) := by
    cases data with
    | none => simp [PhysicsWorld.addChild]
    | some d =>
      by_cases hnode : (w.records d).node = none
      · simp [PhysicsWorld.addChild, hnode]
      · by_cases hreg : w.hasCollider d = true
        · simp [PhysicsWorld.addChild, hnode, hreg]
        · cases halloc : w.uidAllocator.allocate pick with
          | error e =>
            have he : e = .exhausted := by
              unfold LinearIdAllocator.allocate at halloc
              cases hff : w.uidAllocator.firstFree with
              | none =>
                simp only [hff, Except.error.injEq] at halloc
                exact halloc.symm
              | some least => simp [hff] at halloc
            simp [PhysicsWorld.addChild, hnode, hreg, halloc, he]
          | ok r => simp [PhysicsWorld.addChild, hnode, hreg, halloc]
  refine ⟨hiff, ?_, ?_⟩
  · intro d hd hnode _
    exact hiff.mpr (Or.inr ⟨d, hd, hnode⟩)
  · intro h
    simp only [step, h]

/-- C14: `collisionEnded` is delivered to colliders that do not trigger
collisions. The records `11` and `12`, whose flag `triggerCollisions()` is
false, are registered; their bodies touch during one frame and not during the
next, in which `collisionEnded(11, 12)` and `collisionEnded(12, 11)` are
delivered. -/
theorem collisionEnded_without_trigger :
    (run (PhysicsWorld.create exampleRecords)
        [.addChild (some 11) 101 0, .addChild (some 12) 102 1,
          .notifyCollisions [⟨101, 102⟩], .notifyCollisions []]).map
      (fun r => (r.2, (r.1.records 11).triggerCollisions,
        (r.1.records 12).triggerCollisions)) =
      some ([.collisionEnded 11 12, .collisionEnded 12 11], false, false) := by
  decide

/-- C15: for every state and every manifold list, the call of
`notifyCollisions` that follows `targetRemovedHandler` delivers no
notification and leaves the tracked set empty, and `hasCollider` is false for
every record, before and after that call. -/
theorem notifyCollisions_after_detach_silent (w : PhysicsWorld) (ms : List Manifold) :
    (w.targetRemovedHandler.notifyCollisions ms).2 = [] ∧
      (w.targetRemovedHandler.notifyCollisions ms).1.collisions.elems = [] ∧
      (∀ r, w.targetRemovedHandler.hasCollider r = false) ∧
      (∀ r, (w.targetRemovedHandler.notifyCollisions ms).1.hasCollider r = false) := by
  refine ⟨?_, ?_, fun r => rfl, fun r => rfl⟩
  · apply List.eq_nil_iff_forall_not_mem.mpr
    intro n hn
    cases n with
    | collisionStarted x y =>
      obtain ⟨⟨m, _, hres⟩, _, _⟩ :=
        (collisionStarted_mem_notifyCollisions w.targetRemovedHandler ms x y).mp hn
      rcases hres with ⟨h0, _⟩ | ⟨h0, _⟩
      · cases h0
      · cases h0
    | collisionEnded x y =>
      obtain ⟨c, _, _, hres⟩ :=
        (collisionEnded_mem_notifyCollisions w.targetRemovedHandler ms x y).mp hn
      rcases hres with ⟨h0, _⟩ | ⟨h0, _⟩
      · cases h0
      · cases h0
  · apply List.eq_nil_iff_forall_not_mem.mpr
    intro p hp
    rw [mem_notifyCollisions_collisions] at hp
    obtain ⟨m, _, hm⟩ := hp
    obtain ⟨d0, d1, h0, _, _⟩ := (manifoldCollision_eq_some _ m p).mp hm
    cases h0

/-- C13: from the empty world, whose allocator has `2048` identifiers, the
calls of `addChild` on `2048` distinct valid records all return (whatever the
bodies and the identifiers picked by the allocator), and a call on one more
valid record throws the capacity error and leaves the whole state as it was
after the last of these calls. -/
theorem addChild_capacity_exhausted (records : ColliderPtr → ColliderData)
    (calls : List (ColliderPtr × BodyPtr × Nat))
    (hlen : calls.length = 2048)
    (hnd : (calls.map (fun c => c.1)).Nodup)
    (hvalid : ∀ c ∈ calls, (records c.1).node ≠ none) :
    ∃ w, addChildren (PhysicsWorld.create records) calls = .ok w ∧
      ∀ r body pick, r ∉ calls.map (fun c => c.1) → (records r).node ≠ none →
        w.addChild (some r) body pick = .error .exhausted ∧
          step w (.addChild (some r) body pick) = some (w, []) := by
  have hcount₀ : (PhysicsWorld.create records).uidAllocator.usedCount = 0 :=
    LinearIdAllocator.usedCount_create MAX_BODIES
  have hcap₀ : (PhysicsWorld.create records).uidAllocator.capacity = 2048 := rfl
  obtain ⟨w, hrun, hcount, hcap, hmap, hnodes⟩ :=
    addChildren_ok calls (PhysicsWorld.create records) (by rw [hcount₀, hcap₀, hlen])
      hnd (fun _ _ => rfl) hvalid
  refine ⟨w, hrun, ?_⟩
  intro r body pick hr hnode
  have hex : w.addChild (some r) body pick = .error .exhausted := by
    apply PhysicsWorld.addChild_exhausted
    · rw [hnodes]
      exact hnode
    · rw [hmap r hr]
      rfl
    · rw [hcount, hcap, hcount₀, hcap₀, hlen]
  exact ⟨hex, by simp only [step, hex]⟩

/-- Witness of C13: the records `0, ..., 2047`, each with the body of the same
number, and then the record `2048`. -/
theorem addChild_capacity_exhausted_witness :
    ((List.range 2048).map (fun i => ((i, i, 0) : ColliderPtr × BodyPtr × Nat))).length = 2048 ∧
      ∃ w, addChildren (PhysicsWorld.create exampleRecords)
          ((List.range 2048).map (fun i => (i, i, 0))) = .ok w ∧
        ∀ r body pick, r ∉ ((List.range 2048).map
            (fun i => ((i, i, 0) : ColliderPtr × BodyPtr × Nat))).map (fun c => c.1) →
          (exampleRecords r).node ≠ none →
          w.addChild (some r) body pick = .error .exhausted ∧
            step w (.addChild (some r) body pick) = some (w, []) :=
  ⟨by simp,
    addChild_capacity_exhausted exampleRecords ((List.range 2048).map (fun i => (i, i, 0)))
      (by simp)
      (by
        rw [List.map_map]
        exact (List.nodup_range 2048).map (fun a b h => h))
      (by
        intro c _
        simp [exampleRecords])⟩

end Minko
